import Mathlib

/-!
# SPI master with DMA and AUTOTX (`spi_master_autotx.c`)

A shallow embedding of the transfer-completion logic of the application note
`an0013_efm32_dma/spi_master_autotx.c`: the transfer launcher `spiDmaTransfer`,
the DMA completion callback `transferComplete`, the two USART1 interrupt
handlers, `spiIsActive` and the wait loop `sleepUntilTransferDone`.

Conventions of the embedding
* C `int` values (`bytes`, `bytesLeft`, `index`) are `Int`; the lengths used stay
  far from the 32 bit limits, so no wrap-around is modelled for them.
* 32 bit peripheral registers are `Nat`, with the C operators `&`, `|`, `~`
  as `&&&`, `|||` and `bnot32`.
* Pointers are addresses in `Nat`, `NULL` is address `0`; memory is the sequence
  of byte stores made so far (newest first), so that a cell that was never
  written reads as `none`.
-/

namespace SpiAutoTx

/-! ## Constants of the source file -/

/-- The macro `DMA_CHANNEL_TX` (line 45). -/
def DMA_CHANNEL_TX : Nat := 0

/-- The macro `DMA_CHANNEL_RX` (line 46). -/
def DMA_CHANNEL_RX : Nat := 1

/-- The macro `SPI_TRANSFER_SIZE` (line 66). -/
def SPI_TRANSFER_SIZE : Int := 10

/-- The null pointer. -/
def NULL : Nat := 0

/-! ## Constants of the device header (not part of the source file) -/

/-- Modelled from the spec: the enable bit of the transmit-complete indication,
`USART_IEN_TXC` of the device header (which is not among the sources); bit 0 of
`USART1->IEN` on EFM32. -/
def USART_IEN_TXC : Nat := 0x1

/-- Modelled from the spec: the enable bit of the byte-available interrupt,
`USART_IEN_RXDATAV` of the device header (which is not among the sources); bit 2
of `USART1->IEN` on EFM32. -/
def USART_IEN_RXDATAV : Nat := 0x4

/-- Modelled from the spec: the acknowledge bit of the transmit-complete
indication, `USART_IFC_TXC` of the device header (not among the sources); bit 0
of `USART1->IFC`. -/
def USART_IFC_TXC : Nat := 0x1

/-- Modelled from the spec: the automatic-transmit mode bit, `USART_CTRL_AUTOTX`
of the device header (not among the sources); bit 29 of `USART1->CTRL`. -/
def USART_CTRL_AUTOTX : Nat := 0x20000000

/-- Modelled from the spec: the command that clears the transmit register/FIFO,
`USART_CMD_CLEARTX` of the device header (not among the sources); bit 10. -/
def USART_CMD_CLEARTX : Nat := 0x400

/-- Modelled from the spec: the command that clears the receive register/FIFO,
`USART_CMD_CLEARRX` of the device header (not among the sources); bit 11. -/
def USART_CMD_CLEARRX : Nat := 0x800

/-- The C operator `~` on a 32 bit mask. -/
def bnot32 (m : Nat) : Nat := 0xFFFFFFFF ^^^ m

/-- Whether some bit of `mask` is set in the register value `r`. -/
def bitSet (r mask : Nat) : Bool := (r &&& mask) != 0

/-! ## Memory -/

/-- Memory as the sequence of byte stores performed, newest first: each entry
is an address and the byte stored there. -/
abbrev Mem := List (Int × Nat)

/-- A store of the low eight bits of `v` (a `uint8_t` store) at address `a`. -/
def storeByte (m : Mem) (a : Int) (v : Nat) : Mem := (a, v % 256) :: m

/-- The byte at address `a`: the newest store there, `none` if the cell was
never written. -/
def load : Mem → Int → Option Nat
  | [], _ => none
  | (a', v) :: m, a => if a' = a then some v else load m a

/-- Consecutive byte stores of `data` at `dst`, `dst + 1`, ... in this order
(destination increment of one byte, `dmaDataInc1`). -/
def storeBytes (m : Mem) (dst : Int) : List Nat → Mem
  | [] => m
  | b :: bs => storeBytes (storeByte m dst b) (dst + 1) bs

/-! ## State -/

/-- The static variables of the source file, the USART1 registers it accesses,
the two DMA channels and memory. -/
structure State where
  /-- the variable `static volatile bool autoTx` -/
  autoTx : Bool
  /-- the variable `static volatile int bytesLeft` -/
  bytesLeft : Int
  /-- the variable `static uint8_t *rxBufferG` -/
  rxBufferG : Nat
  /-- the variable `static volatile bool rxActive` -/
  rxActive : Bool
  /-- the variable `static volatile bool txActive` -/
  txActive : Bool
  /-- the register `USART1->IEN` -/
  IEN : Nat
  /-- the values written to the write-only register `USART1->IFC`, newest first -/
  IFC : List Nat
  /-- the register `USART1->CTRL` -/
  CTRL : Nat
  /-- the values written to the command register `USART1->CMD`, newest first -/
  CMD : List Nat
  /-- the activation of the RX DMA channel that is outstanding, if any:
  destination pointer and the count argument passed to `DMA_ActivateBasic` -/
  dmaRx : Option (Nat × Int)
  /-- the activation of the TX DMA channel that is outstanding, if any:
  source pointer and the count argument passed to `DMA_ActivateBasic` -/
  dmaTx : Option (Nat × Int)
  /-- memory -/
  mem : Mem
  deriving DecidableEq, Repr

/-- The state after `setupSpi` and `setupDma`, before the first transfer: no
transfer active, no USART1 interrupt enabled, no DMA channel activated, nothing
stored yet. -/
def idleState : State :=
  { autoTx := false, bytesLeft := 0, rxBufferG := 0, rxActive := false,
    txActive := false, IEN := 0, IFC := [], CTRL := 0, CMD := [],
    dmaRx := none, dmaTx := none, mem := [] }

/-- The idle condition: both transfer flags false, every USART1 interrupt
enable clear and no DMA channel activated. -/
def Idle (s : State) : Prop :=
  s.txActive = false ∧ s.rxActive = false ∧ s.IEN = 0 ∧ s.dmaRx = none ∧ s.dmaTx = none

instance (s : State) : Decidable (Idle s) := by
  unfold Idle; infer_instance

/-! ## The DMA driver call -/

/-- Modelled from the spec: the call
`DMA_ActivateBasic(channel, true, false, dst, src, nMinus1)` of the DMA driver
(not among the sources), which activates a channel with a destination/source
pointer and a count. The channel is recorded as activated with its memory side
pointer (`dst` for the RX channel, `src` for the TX channel) and the count
argument as the caller computes it. Other channel numbers are not configured
and change nothing. -/
def DMA_ActivateBasic (channel : Nat) (memPtr : Nat) (nMinus1 : Int) (s : State) : State :=
  if channel = DMA_CHANNEL_TX then { s with dmaTx := some (memPtr, nMinus1) }
  else if channel = DMA_CHANNEL_RX then { s with dmaRx := some (memPtr, nMinus1) }
  else s

/-! ## The functions of the source file -/

/-- The handler `USART1_RX_IRQHandler` (lines 76-91); `RXDATA` is the value read from
`USART1->RXDATA`. -/
def USART1_RX_IRQHandler (RXDATA : Nat) (s : State) : State :=
  let index : Int := SPI_TRANSFER_SIZE - s.bytesLeft
  let s := { s with mem := storeByte s.mem ((s.rxBufferG : Int) + index) RXDATA }
  let s := { s with bytesLeft := s.bytesLeft - 1 }
  if s.bytesLeft = 0 then
    let s := { s with txActive := false }
    let s := { s with rxActive := false }
    { s with IEN := s.IEN &&& bnot32 USART_IEN_RXDATAV }
  else s

/-- The handler `USART1_TX_IRQHandler` (lines 100-112). -/
def USART1_TX_IRQHandler (s : State) : State :=
  let s := { s with IEN := s.IEN &&& USART_IEN_TXC }
  let s := { s with IFC := USART_IFC_TXC :: s.IFC }
  let s := { s with CTRL := s.CTRL &&& bnot32 USART_CTRL_AUTOTX }
  let s := { s with bytesLeft := 3 }
  { s with IEN := s.IEN ||| USART_IEN_RXDATAV }

/-- The callback `transferComplete` (lines 120-143); the arguments `primary` and `user` are
unused. -/
def transferComplete (channel : Nat) (s : State) : State :=
  if channel = DMA_CHANNEL_TX then
    { s with txActive := false }
  else if channel = DMA_CHANNEL_RX then
    if s.autoTx then
      { s with IEN := s.IEN ||| USART_IEN_TXC }
    else
      { s with rxActive := false }
  else s

/-- The launcher `spiDmaTransfer` (lines 264-315). -/
def spiDmaTransfer (txBuffer rxBuffer : Nat) (bytes : Int) (s : State) : State :=
  let s := { s with autoTx := decide (txBuffer = NULL) }
  let s :=
    if rxBuffer ≠ NULL then
      let s := { s with rxActive := true }
      let s := { s with CMD := USART_CMD_CLEARRX :: s.CMD }
      DMA_ActivateBasic DMA_CHANNEL_RX rxBuffer (bytes - (if s.autoTx then 4 else 1)) s
    else s
  let s := { s with CMD := USART_CMD_CLEARTX :: s.CMD }
  let s := { s with txActive := true }
  if s.autoTx then
    let s := { s with rxBufferG := rxBuffer }
    { s with CTRL := s.CTRL ||| USART_CTRL_AUTOTX }
  else
    DMA_ActivateBasic DMA_CHANNEL_TX txBuffer (bytes - 1) s

/-- The query `spiIsActive` (lines 321-327): the value returned; the function writes no
variable. -/
def spiIsActive (s : State) : Bool :=
  let temp := s.rxActive
  let temp := temp || s.txActive
  temp

/-! ## The DMA engine -/

/-- Modelled from the spec: the number of bytes a DMA channel moves for the
count argument of `DMA_ActivateBasic` (the DMA driver and engine are not among
the sources). The argument is the number of elements minus one: the source
passes `bytes - 4` to skip the last 3 bytes, and when the RX channel is done
`length - tailLength` bytes have been captured by it. -/
def dmaElements (nMinus1 : Int) : Nat := (nMinus1 + 1).toNat

/-- Modelled from the spec: the RX DMA channel running to completion (the DMA
engine is not among the sources). It moves the first `dmaElements` bytes of the
incoming sequence to consecutive addresses from the programmed destination,
leaves the channel inactive and invokes the callback
`transferComplete(DMA_CHANNEL_RX, ...)`. Nothing happens while the channel is
not activated or fewer bytes than programmed have arrived. -/
def dmaRxRun (incoming : List Nat) (s : State) : State :=
  match s.dmaRx with
  | none => s
  | some (dst, nMinus1) =>
    if dmaElements nMinus1 ≤ incoming.length then
      transferComplete DMA_CHANNEL_RX
        { s with mem := storeBytes s.mem dst (incoming.take (dmaElements nMinus1)),
                 dmaRx := none }
    else s

/-- Modelled from the spec: the TX DMA channel running to completion (the DMA
engine is not among the sources): the channel becomes inactive and the callback
`transferComplete(DMA_CHANNEL_TX, ...)` is invoked. -/
def dmaTxRun (s : State) : State :=
  match s.dmaTx with
  | none => s
  | some _ => transferComplete DMA_CHANNEL_TX { s with dmaTx := none }

/-- The number of bytes the outstanding RX DMA activation moves (0 when the
channel is not activated). -/
def rxDmaBytes (s : State) : Nat :=
  match s.dmaRx with
  | none => 0
  | some (_, nMinus1) => dmaElements nMinus1

/-- One receive handler invocation per byte of `tail`, in arrival order. -/
def rxTail (tail : List Nat) (s : State) : State :=
  tail.foldl (fun s b => USART1_RX_IRQHandler b s) s

/-- A complete auto-transmit transfer against the incoming byte sequence `r`:
`spiDmaTransfer(NULL, rxBuffer, bytes)`, the RX DMA channel running to
completion on the leading bytes of `r`, `USART1_TX_IRQHandler`, then one
`USART1_RX_IRQHandler` for each remaining byte of `r`. -/
def autoTxTransfer (rxBuffer : Nat) (bytes : Int) (r : List Nat) (s : State) : State :=
  let s1 := spiDmaTransfer NULL rxBuffer bytes s
  let s2 := dmaRxRun r s1
  let s3 := USART1_TX_IRQHandler s2
  rxTail (r.drop (rxDmaBytes s1)) s3

/-! ## Asynchronous events -/

/-- The asynchronous entries into the driver: the DMA completion callback for a
channel and the two USART1 interrupt handlers (the receive handler with the
value it reads from `USART1->RXDATA`). -/
inductive Event where
  | dmaDone (channel : Nat)
  | txIrq
  | rxIrq (RXDATA : Nat)
  deriving DecidableEq, Repr

/-- The effect of an event on the state. -/
def Event.apply : Event → State → State
  | .dmaDone channel, s => transferComplete channel s
  | .txIrq, s => USART1_TX_IRQHandler s
  | .rxIrq b, s => USART1_RX_IRQHandler b s

/-- Whether the hardware can raise the event: a USART1 handler is entered only
when its interrupt-enable bit is set in `USART1->IEN`. -/
def Event.enabled : Event → State → Bool
  | .dmaDone _, _ => true
  | .txIrq, s => bitSet s.IEN USART_IEN_TXC
  | .rxIrq _, s => bitSet s.IEN USART_IEN_RXDATAV

/-- Runs a sequence of events, each of which must be enabled when it fires;
`none` if some event is not enabled at its turn. -/
def runEvents : List Event → State → Option State
  | [], s => some s
  | e :: es, s => if e.enabled s then runEvents es (e.apply s) else none

/-! ## The wait loop -/

/-- The control points of `sleepUntilTransferDone` (lines 333-362). -/
inductive Pc where
  /-- before `INT_Disable()` (line 348) -/
  | intDisable
  /-- before `isActive = spiIsActive()` (line 349) -/
  | readFlags
  /-- before `if ( isActive )` (line 350) -/
  | testSleep
  /-- inside `EMU_EnterEM1()` (line 352) -/
  | enterEM1
  /-- before `INT_Enable()` (line 354) -/
  | intEnable
  /-- before `if ( !isActive ) break` (line 357) -/
  | testExit
  /-- the function has returned -/
  | returned
  deriving DecidableEq, Repr

/-- A configuration of the wait loop: control point, the local `isActive`,
whether interrupts are disabled, the driver state, and two counters of what the
loop has done so far (calls of `spiIsActive`, entries into EM1). -/
structure WaitCfg where
  pc : Pc
  isActive : Bool
  irqOff : Bool
  s : State
  reads : Nat
  sleeps : Nat
  deriving DecidableEq, Repr

/-- Entry into `sleepUntilTransferDone` with interrupts enabled:
`bool isActive = false`. -/
def waitEntry (s : State) : WaitCfg :=
  { pc := .intDisable, isActive := false, irqOff := false, s := s, reads := 0, sleeps := 0 }

/-- Modelled from the spec: `INT_Disable` of the interrupt library (not among
the sources) disables interrupts, so that no handler runs until they are enabled
again. -/
def INT_Disable (c : WaitCfg) : WaitCfg := { c with irqOff := true }

/-- Modelled from the spec: `INT_Enable` of the interrupt library (not among the
sources) enables interrupts again. -/
def INT_Enable (c : WaitCfg) : WaitCfg := { c with irqOff := false }

/-- Modelled from the spec: `EMU_EnterEM1` of the energy library (not among the
sources) parks the core until a wake-up, which may be caused by any event,
related to the transfer or not; it changes neither the driver state nor the
interrupt masking. The entry is counted. -/
def EMU_EnterEM1 (c : WaitCfg) : WaitCfg := { c with sleeps := c.sleeps + 1 }

/-- One statement of `sleepUntilTransferDone` (lines 346-361), from the control
point `c.pc` to the next one. -/
def threadStep (c : WaitCfg) : WaitCfg :=
  match c.pc with
  | .intDisable => { INT_Disable c with pc := .readFlags }
  | .readFlags =>
      { c with isActive := spiIsActive c.s, reads := c.reads + 1, pc := .testSleep }
  | .testSleep => if c.isActive then { c with pc := .enterEM1 } else { c with pc := .intEnable }
  | .enterEM1 => { EMU_EnterEM1 c with pc := .intEnable }
  | .intEnable => { INT_Enable c with pc := .testExit }
  | .testExit => if !c.isActive then { c with pc := .returned } else { c with pc := .intDisable }
  | .returned => c

/-- One step of an execution of the wait loop: `none` is the next statement of
the loop, `some e` is the handler of event `e` running to completion, which is
possible only while interrupts are enabled. -/
def waitStep (a : Option Event) (c : WaitCfg) : Option WaitCfg :=
  match a with
  | none => if c.pc = .returned then none else some (threadStep c)
  | some e => if c.irqOff then none else some { c with s := e.apply c.s }

/-- An execution of the wait loop along a schedule of steps, stopping at the
point of return; `none` if the schedule asks for a step that cannot occur. -/
def runWait : List (Option Event) → WaitCfg → Option WaitCfg
  | [], c => some c
  | a :: as, c =>
    match waitStep a c with
    | none => none
    | some c1 => runWait as c1


/-- The invariant of the wait loop: the flags are read and the decision to sleep
is taken with interrupts disabled, the local `isActive` agrees with the flags
for as long as interrupts stay disabled, and once it is false the flags are
false. -/
def WaitInv (c : WaitCfg) : Prop :=
  match c.pc with
  | .intDisable => True
  | .readFlags => c.irqOff = true
  | .testSleep => c.irqOff = true ∧ 1 ≤ c.reads ∧ c.isActive = spiIsActive c.s
  | .enterEM1 => c.irqOff = true ∧ 1 ≤ c.reads ∧ c.isActive = true ∧ spiIsActive c.s = true
  | .intEnable => c.irqOff = true ∧ 1 ≤ c.reads ∧ c.isActive = spiIsActive c.s
  | .testExit => 1 ≤ c.reads ∧ (c.isActive = false → spiIsActive c.s = false)
  | .returned => 1 ≤ c.reads ∧ c.isActive = false ∧ spiIsActive c.s = false

/-- The invariant of the wait loop when it is entered with both flags false: the
flags stay false, the loop reads them once and never enters EM1. -/
def WaitIdleInv (c : WaitCfg) : Prop :=
  spiIsActive c.s = false ∧ c.sleeps = 0 ∧
  match c.pc with
  | .intDisable => c.reads = 0
  | .readFlags => c.reads = 0
  | .testSleep => c.reads = 1 ∧ c.isActive = false
  | .enterEM1 => False
  | .intEnable => c.reads = 1 ∧ c.isActive = false
  | .testExit => c.reads = 1 ∧ c.isActive = false
  | .returned => c.reads = 1 ∧ c.isActive = false

/-! ## Event sequences of whole transfers -/

/-- The complete auto-transmit event sequence of a 10 byte transfer into `buf`:
`spiDmaTransfer(NULL, buf, 10)`, the RX DMA completion callback,
`USART1_TX_IRQHandler`, then three `USART1_RX_IRQHandler` invocations reading
`b0`, `b1`, `b2`. -/
def autoTxSequence (buf : Nat) (b0 b1 b2 : Nat) (s : State) : State :=
  rxTail [b0, b1, b2]
    (USART1_TX_IRQHandler (transferComplete DMA_CHANNEL_RX (spiDmaTransfer NULL buf 10 s)))

/-! ## Measures of the wait loop -/

/-- The number of statements the wait loop still executes before it returns,
once both flags are false: from the top of the loop it disables interrupts,
reads the flags, skips the sleep, enables interrupts and leaves (5 statements);
with a stale `isActive = true` at the exit test it goes around once more (6). -/
def waitRank (c : WaitCfg) : Nat :=
  match c.pc with
  | .intDisable => 5
  | .readFlags => 4
  | .testSleep => 3
  | .enterEM1 => 7
  | .intEnable => 2
  | .testExit => if c.isActive then 6 else 1
  | .returned => 0

/-- The invariant of an execution that starts inside EM1 with `n` reads done:
a false `isActive`, and so the return, comes from a read made after the
wake-up. -/
def WakeInv (n : Nat) (c : WaitCfg) : Prop :=
  n ≤ c.reads ∧
  match c.pc with
  | .intDisable => True
  | .readFlags => True
  | .testSleep => c.isActive = false → n + 1 ≤ c.reads
  | .enterEM1 => c.isActive = true
  | .intEnable => c.isActive = false → n + 1 ≤ c.reads
  | .testExit => c.isActive = false → n + 1 ≤ c.reads
  | .returned => n + 1 ≤ c.reads

/-! ## The step relation of the driver -/

/-- A step of the driver: a call of `spiDmaTransfer` by the application, or an
asynchronous event. -/
inductive Action where
  | launch (txBuffer rxBuffer : Nat) (bytes : Int)
  | event (e : Event)
  deriving DecidableEq, Repr

/-- The effect of a step on the state. -/
def Action.apply : Action → State → State
  | .launch tx rx bytes, s => spiDmaTransfer tx rx bytes s
  | .event e, s => e.apply s

/-- Whether the step can occur: a launch and a DMA completion callback always,
a USART1 handler only when its interrupt-enable bit is set. -/
def Action.enabled : Action → State → Bool
  | .launch _ _ _, _ => true
  | .event e, s => e.enabled s

/-- Runs a sequence of steps, each of which must be enabled at its turn. -/
def runActions : List Action → State → Option State
  | [], s => some s
  | a :: as, s => if a.enabled s then runActions as (a.apply s) else none

/-- The invariant of the tail counter: `bytesLeft` is between 0 and 3, and at
least 1 while the RXDATAV interrupt is enabled. -/
def TailInv (s : State) : Prop :=
  0 ≤ s.bytesLeft ∧ s.bytesLeft ≤ 3 ∧
  (bitSet s.IEN USART_IEN_RXDATAV = true → 1 ≤ s.bytesLeft)

/-- Modelled from the spec: whether the hardware can raise the event in a state.
The DMA subsystem invokes the completion callback of a channel only when that
channel has been activated and finishes its programmed count (the DMA engine
is not among the sources); a USART1 handler is entered only when its
interrupt-enable bit is set. -/
def Event.armed : Event → State → Bool
  | .dmaDone channel, s =>
      if channel = DMA_CHANNEL_TX then s.dmaTx.isSome
      else if channel = DMA_CHANNEL_RX then s.dmaRx.isSome
      else false
  | .txIrq, s => bitSet s.IEN USART_IEN_TXC
  | .rxIrq _, s => bitSet s.IEN USART_IEN_RXDATAV

/-- Modelled from the spec: the effect of an event raised by the hardware. A DMA
channel that has finished is no longer active when its completion callback
runs (the DMA engine is not among the sources); the handlers are those of the
source file. -/
def Event.fire : Event → State → State
  | .dmaDone channel, s =>
      if channel = DMA_CHANNEL_TX then transferComplete channel { s with dmaTx := none }
      else if channel = DMA_CHANNEL_RX then transferComplete channel { s with dmaRx := none }
      else transferComplete channel s
  | .txIrq, s => USART1_TX_IRQHandler s
  | .rxIrq b, s => USART1_RX_IRQHandler b s

/-- Runs a sequence of events raised by the hardware, without any further call
of `spiDmaTransfer`; `none` if some event cannot be raised at its turn. -/
def runArmed : List Event → State → Option State
  | [], s => some s
  | e :: es, s => if e.armed s then runArmed es (e.fire s) else none

/-! ## Claims C1 to C4: the launcher and the tail capture -/

/-- The state after an auto-transmit launch with a receive buffer. -/
theorem spiDmaTransfer_auto (rx : Nat) (bytes : Int) (s : State) (hrx : rx ≠ NULL) :
    spiDmaTransfer NULL rx bytes s =
      { s with autoTx := true, rxActive := true, txActive := true, rxBufferG := rx,
               CMD := USART_CMD_CLEARTX :: USART_CMD_CLEARRX :: s.CMD,
               CTRL := s.CTRL ||| USART_CTRL_AUTOTX,
               dmaRx := some (rx, bytes - 4) } := by
  simp [spiDmaTransfer, hrx, DMA_ActivateBasic, DMA_CHANNEL_RX, DMA_CHANNEL_TX]

/-- The state after a launch with both buffers present. -/
theorem spiDmaTransfer_dma (tx rx : Nat) (bytes : Int) (s : State) (htx : tx ≠ NULL)
    (hrx : rx ≠ NULL) :
    spiDmaTransfer tx rx bytes s =
      { s with autoTx := false, rxActive := true, txActive := true,
               CMD := USART_CMD_CLEARTX :: USART_CMD_CLEARRX :: s.CMD,
               dmaRx := some (rx, bytes - 1), dmaTx := some (tx, bytes - 1) } := by
  simp [spiDmaTransfer, hrx, htx, DMA_ActivateBasic, DMA_CHANNEL_RX, DMA_CHANNEL_TX]

/-- C1 (amended): for every call `spiDmaTransfer(txBuffer, rxBuffer, bytes)` with
`rxBuffer` present, `rxActive` is set to true and the byte count programmed into
the RX DMA channel is `bytes - 4` when `txBuffer` is absent (auto-transmit) and
`bytes - 1` when `txBuffer` is present. -/
theorem C1_rx_dma_count (tx rx : Nat) (bytes : Int) (s : State) (hrx : rx ≠ NULL) :
    (spiDmaTransfer tx rx bytes s).rxActive = true ∧
    (spiDmaTransfer tx rx bytes s).dmaRx =
      some (rx, if tx = NULL then bytes - 4 else bytes - 1) := by
  by_cases htx : tx = NULL
  · subst htx
    rw [spiDmaTransfer_auto rx bytes s hrx]
    simp
  · rw [spiDmaTransfer_dma tx rx bytes s htx hrx]
    simp [htx]

/-- C1 (witness): the amended statement for the 10 byte auto-transmit transfer
into the buffer at address 100 and for the 10 byte transfer with the transmit
buffer at address 50. -/
theorem C1_rx_dma_count_witness :
    100 ≠ NULL ∧
    (spiDmaTransfer NULL 100 10 idleState).rxActive = true ∧
    (spiDmaTransfer NULL 100 10 idleState).dmaRx = some (100, 6) ∧
    (spiDmaTransfer 50 100 10 idleState).dmaRx = some (100, 9) :=
  ⟨by decide, (C1_rx_dma_count NULL 100 10 idleState (by decide)).1,
   (C1_rx_dma_count NULL 100 10 idleState (by decide)).2,
   (C1_rx_dma_count 50 100 10 idleState (by decide)).2⟩

/-- C1 (counterexample): `spiDmaTransfer(NULL, buf, 10)` programs the RX DMA
channel with the count 6, not with `10 - tailLength = 7`. -/
theorem C1_counterexample :
    (spiDmaTransfer NULL 100 10 idleState).dmaRx = some (100, 6) ∧
    (spiDmaTransfer NULL 100 10 idleState).dmaRx ≠ some (100, 10 - 3) := by
  decide

/-- Reading after one byte store. -/
theorem load_storeByte (m : Mem) (d a : Int) (b : Nat) :
    load (storeByte m d b) a = if d = a then some (b % 256) else load m a := by
  simp [storeByte, load]

/-- Reading after a run of consecutive byte stores. -/
theorem load_storeBytes (l : List Nat) (m : Mem) (d a : Int) :
    load (storeBytes m d l) a =
      if d ≤ a ∧ a < d + l.length then (l[(a - d).toNat]?).map (fun b => b % 256)
      else load m a := by
  induction l generalizing m d with
  | nil =>
    simp only [storeBytes, List.length_nil]
    split_ifs with h
    · omega
    · rfl
  | cons b bs ih =>
    simp only [storeBytes, ih, load_storeByte, List.length_cons]
    split_ifs with c1 c2 c3 c4 c5
    · have hidx : (a - d).toNat = (a - (d + 1)).toNat + 1 := by omega
      rw [hidx, List.getElem?_cons_succ]
    · omega
    · subst c3
      simp
    · omega
    · omega
    · rfl


/-- Three receive handler invocations starting with the counter at 3. -/
theorem rxTail_three (b0 b1 b2 : Nat) (s : State) (h : s.bytesLeft = 3) :
    rxTail [b0, b1, b2] s =
      { s with mem := storeByte (storeByte (storeByte s.mem ((s.rxBufferG : Int) + 7) b0)
                        ((s.rxBufferG : Int) + 8) b1) ((s.rxBufferG : Int) + 9) b2,
               bytesLeft := 0, txActive := false, rxActive := false,
               IEN := s.IEN &&& bnot32 USART_IEN_RXDATAV } := by
  simp [rxTail, USART1_RX_IRQHandler, h, SPI_TRANSFER_SIZE]

/-- The state after the RX DMA channel of an auto-transmit transfer has run to
completion. -/
theorem dmaRxRun_auto (rx : Nat) (L : Int) (r : List Nat) (s : State)
    (hrx : rx ≠ NULL) (hL : 3 < L) (hr : (r.length : Int) = L) :
    dmaRxRun r (spiDmaTransfer NULL rx L s) =
      { s with autoTx := true, rxActive := true, txActive := true, rxBufferG := rx,
               CMD := USART_CMD_CLEARTX :: USART_CMD_CLEARRX :: s.CMD,
               CTRL := s.CTRL ||| USART_CTRL_AUTOTX,
               mem := storeBytes s.mem rx (r.take (L - 3).toNat), dmaRx := none,
               IEN := s.IEN ||| USART_IEN_TXC } := by
  have h43 : L - 4 + 1 = L - 3 := by omega
  have hle : (L - 3).toNat ≤ r.length := by omega
  simp [spiDmaTransfer_auto rx L s hrx, dmaRxRun, dmaElements, h43, hle, transferComplete,
    DMA_CHANNEL_RX, DMA_CHANNEL_TX]

/-- A list of length `n + 3` has exactly three elements after its first `n`. -/
theorem drop_three (r : List Nat) (n : Nat) (h : r.length = n + 3) :
    ∃ b0 b1 b2, r.drop n = [b0, b1, b2] := by
  have hl : (r.drop n).length = 3 := by simp [h]
  match hd : r.drop n, hl with
  | [b0, b1, b2], _ => exact ⟨b0, b1, b2, rfl⟩

/-- A list of length 10 is a list of ten elements. -/
theorem length_ten (r : List Nat) (h : r.length = 10) :
    ∃ r0 r1 r2 r3 r4 r5 r6 r7 r8 r9, r = [r0, r1, r2, r3, r4, r5, r6, r7, r8, r9] := by
  match r, h with
  | [r0, r1, r2, r3, r4, r5, r6, r7, r8, r9], _ =>
    exact ⟨r0, r1, r2, r3, r4, r5, r6, r7, r8, r9, rfl⟩

/-- The state after a complete auto-transmit transfer whose last three incoming
bytes are `b0`, `b1`, `b2`. -/
theorem autoTxTransfer_state (rx : Nat) (L : Int) (r : List Nat) (s : State) (b0 b1 b2 : Nat)
    (hrx : rx ≠ NULL) (hL : 3 < L) (hr : (r.length : Int) = L)
    (hd : r.drop (L - 3).toNat = [b0, b1, b2]) :
    autoTxTransfer rx L r s =
      { s with autoTx := true, rxActive := false, txActive := false, rxBufferG := rx,
               bytesLeft := 0,
               CMD := USART_CMD_CLEARTX :: USART_CMD_CLEARRX :: s.CMD,
               IFC := USART_IFC_TXC :: s.IFC,
               CTRL := (s.CTRL ||| USART_CTRL_AUTOTX) &&& bnot32 USART_CTRL_AUTOTX,
               mem := storeByte (storeByte (storeByte
                        (storeBytes s.mem rx (r.take (L - 3).toNat))
                        ((rx : Int) + 7) b0) ((rx : Int) + 8) b1) ((rx : Int) + 9) b2,
               dmaRx := none,
               IEN := (((s.IEN ||| USART_IEN_TXC) &&& USART_IEN_TXC) ||| USART_IEN_RXDATAV)
                        &&& bnot32 USART_IEN_RXDATAV } := by
  have h43 : L - 4 + 1 = L - 3 := by omega
  have hn : rxDmaBytes (spiDmaTransfer NULL rx L s) = (L - 3).toNat := by
    simp [rxDmaBytes, spiDmaTransfer_auto rx L s hrx, dmaElements, h43]
  unfold autoTxTransfer
  simp only [hn, hd, dmaRxRun_auto rx L r s hrx hL hr]
  rw [rxTail_three _ _ _ _ (by simp [USART1_TX_IRQHandler])]
  simp [USART1_TX_IRQHandler]

/-- C2 (amended): for every auto-transmit transfer of length `L > 3` run to
completion against incoming bytes `r[0..L-1]`, the RX DMA channel delivers
exactly the first `L - 3` bytes, to the buffer offsets `0 .. L - 4` in order, the
receive handler delivers exactly the 3 remaining bytes, which it stores at the
fixed buffer offsets 7, 8 and 9, and both flags end false; when
`L = SPI_TRANSFER_SIZE = 10` the receive buffer ends equal to `r[0..9]`, every
index written. -/
theorem C2_tail_length (rx : Nat) (L : Int) (r : List Nat) (s : State)
    (hrx : rx ≠ NULL) (hL : 3 < L) (hr : (r.length : Int) = L) (hb : ∀ b ∈ r, b < 256) :
    (dmaRxRun r (spiDmaTransfer NULL rx L s)).mem
        = storeBytes s.mem rx (r.take (L - 3).toNat) ∧
    (r.take (L - 3).toNat).length = (L - 3).toNat ∧
    (∃ b0 b1 b2, r.drop (L - 3).toNat = [b0, b1, b2] ∧
      (autoTxTransfer rx L r s).mem =
        storeByte (storeByte (storeByte (dmaRxRun r (spiDmaTransfer NULL rx L s)).mem
          ((rx : Int) + 7) b0) ((rx : Int) + 8) b1) ((rx : Int) + 9) b2) ∧
    (autoTxTransfer rx L r s).txActive = false ∧
    (autoTxTransfer rx L r s).rxActive = false ∧
    (L = SPI_TRANSFER_SIZE →
      ∀ (i : Nat) (hi : i < r.length),
        load (autoTxTransfer rx L r s).mem ((rx : Int) + i) = some r[i]) := by
  have hlen : r.length = (L - 3).toNat + 3 := by omega
  obtain ⟨b0, b1, b2, hd⟩ := drop_three r _ hlen
  have hrun := dmaRxRun_auto rx L r s hrx hL hr
  have hfull := autoTxTransfer_state rx L r s b0 b1 b2 hrx hL hr hd
  refine ⟨by rw [hrun], by simp; omega, ⟨b0, b1, b2, hd, by rw [hfull, hrun]⟩,
    by rw [hfull], by rw [hfull], ?_⟩
  intro h10 i hi
  have hr10 : r.length = 10 := by simp [SPI_TRANSFER_SIZE] at h10; omega
  obtain ⟨r0, r1, r2, r3, r4, r5, r6, r7, r8, r9, rfl⟩ := length_ten r hr10
  subst h10
  simp at hb
  obtain ⟨h0, h1, h2, h3, h4, h5, h6, h7, h8, h9⟩ := hb
  simp [SPI_TRANSFER_SIZE] at hd
  obtain ⟨rfl, rfl, rfl⟩ := hd
  rw [hfull]
  simp only [List.length] at hi
  interval_cases i <;>
    simp [SPI_TRANSFER_SIZE, load_storeByte, load_storeBytes, Nat.mod_eq_of_lt, *]

/-- C2 (counterexample): in the auto-transmit transfer of length 5 into the
buffer at address 100 against the bytes 1, 2, 3, 4, 5, buffer index 2 is never
written and the byte 3 lands at index 7, outside the 5 byte buffer. -/
theorem C2_counterexample :
    load (autoTxTransfer 100 5 [1, 2, 3, 4, 5] idleState).mem (100 + 2) = none ∧
    load (autoTxTransfer 100 5 [1, 2, 3, 4, 5] idleState).mem (100 + 7) = some 3 := by
  decide

/-- C2 (witness): the amended statement at the buffer address 100, length 10 and
the incoming bytes 1 .. 10, read at index 9. -/
theorem C2_tail_length_witness :
    (100 ≠ NULL ∧ (3 : Int) < 10 ∧
      (([1, 2, 3, 4, 5, 6, 7, 8, 9, 10] : List Nat).length : Int) = 10 ∧
      ∀ b ∈ ([1, 2, 3, 4, 5, 6, 7, 8, 9, 10] : List Nat), b < 256) ∧
    load (autoTxTransfer 100 10 [1, 2, 3, 4, 5, 6, 7, 8, 9, 10] idleState).mem (100 + 9)
      = some 10 :=
  ⟨⟨by decide, by decide, by decide, by decide⟩,
   (C2_tail_length 100 10 [1, 2, 3, 4, 5, 6, 7, 8, 9, 10] idleState (by decide) (by decide)
    (by decide) (by decide)).2.2.2.2.2 rfl 9 (by decide)⟩


/-- After `r |= m` the bits of `m` read back as `m`. -/
theorem or_and_self_mask (r m : Nat) : (r ||| m) &&& m = m := by
  apply Nat.eq_of_testBit_eq
  intro i
  simp only [Nat.testBit_and, Nat.testBit_or]
  cases r.testBit i <;> cases m.testBit i <;> rfl

/-- After `r |= m` a nonzero mask `m` is set. -/
theorem bitSet_or_mask (r m : Nat) (hm : m ≠ 0) : bitSet (r ||| m) m = true := by
  simp [bitSet, or_and_self_mask, hm]

/-- C3: Scenario B. For `spiDmaTransfer(NULL, buf, 10)` from an idle state the RX
DMA channel is programmed with the count 6, the AUTOTX control bit is set and the
TX DMA channel is not activated; after the RX DMA completion callback,
`USART1_TX_IRQHandler` and three `USART1_RX_IRQHandler` invocations delivering
the bytes `b0`, `b1`, `b2`, the buffer has `buf[7] = b0`, `buf[8] = b1`,
`buf[9] = b2` and `txActive = rxActive = false`. -/
theorem C3_scenario_B (buf : Nat) (s : State) (b0 b1 b2 : Nat)
    (hbuf : buf ≠ NULL) (hs : Idle s) (h0 : b0 < 256) (h1 : b1 < 256) (h2 : b2 < 256) :
    (spiDmaTransfer NULL buf 10 s).dmaRx = some (buf, 6) ∧
    bitSet (spiDmaTransfer NULL buf 10 s).CTRL USART_CTRL_AUTOTX = true ∧
    (spiDmaTransfer NULL buf 10 s).dmaTx = none ∧
    load (rxTail [b0, b1, b2] (USART1_TX_IRQHandler (transferComplete DMA_CHANNEL_RX
      (spiDmaTransfer NULL buf 10 s)))).mem ((buf : Int) + 7) = some b0 ∧
    load (rxTail [b0, b1, b2] (USART1_TX_IRQHandler (transferComplete DMA_CHANNEL_RX
      (spiDmaTransfer NULL buf 10 s)))).mem ((buf : Int) + 8) = some b1 ∧
    load (rxTail [b0, b1, b2] (USART1_TX_IRQHandler (transferComplete DMA_CHANNEL_RX
      (spiDmaTransfer NULL buf 10 s)))).mem ((buf : Int) + 9) = some b2 ∧
    (rxTail [b0, b1, b2] (USART1_TX_IRQHandler (transferComplete DMA_CHANNEL_RX
      (spiDmaTransfer NULL buf 10 s)))).txActive = false ∧
    (rxTail [b0, b1, b2] (USART1_TX_IRQHandler (transferComplete DMA_CHANNEL_RX
      (spiDmaTransfer NULL buf 10 s)))).rxActive = false := by
  obtain ⟨_, _, _, _, htx⟩ := hs
  rw [rxTail_three _ _ _ _ (by simp [USART1_TX_IRQHandler])]
  rw [spiDmaTransfer_auto buf 10 s hbuf]
  refine ⟨by simp, bitSet_or_mask _ _ (by decide), htx, ?_, ?_, ?_, rfl, rfl⟩ <;>
    simp [USART1_TX_IRQHandler, transferComplete, DMA_CHANNEL_RX, DMA_CHANNEL_TX,
      load_storeByte, Nat.mod_eq_of_lt, *]

/-- C3 (witness): Scenario B at the buffer address 100 from the initial idle
state, with the tail bytes 8, 9 and 10. -/
theorem C3_scenario_B_witness :
    (100 ≠ NULL ∧ Idle idleState ∧ 8 < 256 ∧ 9 < 256 ∧ 10 < 256) ∧
    (spiDmaTransfer NULL 100 10 idleState).dmaRx = some (100, 6) ∧
    load (rxTail [8, 9, 10] (USART1_TX_IRQHandler (transferComplete DMA_CHANNEL_RX
      (spiDmaTransfer NULL 100 10 idleState)))).mem (100 + 7) = some 8 :=
  ⟨⟨by decide, by decide, by decide, by decide, by decide⟩,
   (C3_scenario_B 100 idleState 8 9 10 (by decide) (by decide) (by decide) (by decide)
      (by decide)).1,
   (C3_scenario_B 100 idleState 8 9 10 (by decide) (by decide) (by decide) (by decide)
      (by decide)).2.2.2.1⟩

/-- C4 (amended): for every auto-transmit transfer of length `L` with a receive
buffer, `USART1_TX_IRQHandler` sets the counter to 3 and the k-th byte
(k = 0, 1, 2) captured by `USART1_RX_IRQHandler` after it is stored at
receive-buffer index `SPI_TRANSFER_SIZE - remaining = 7 + k`, with `remaining`
the counter value before its decrement, whatever `L` is; this is index
`(L - 3) + k` when `L = SPI_TRANSFER_SIZE = 10`; the three stores are in strictly
increasing index order. -/
theorem C4_tail_index (rx : Nat) (L : Int) (s : State) (b0 b1 b2 : Nat) (hrx : rx ≠ NULL) :
    (USART1_TX_IRQHandler (transferComplete DMA_CHANNEL_RX
      (spiDmaTransfer NULL rx L s))).bytesLeft = 3 ∧
    (rxTail [b0] (USART1_TX_IRQHandler (transferComplete DMA_CHANNEL_RX
      (spiDmaTransfer NULL rx L s)))).mem
      = ((rx : Int) + (SPI_TRANSFER_SIZE - 3), b0 % 256) :: s.mem ∧
    (rxTail [b0, b1] (USART1_TX_IRQHandler (transferComplete DMA_CHANNEL_RX
      (spiDmaTransfer NULL rx L s)))).mem
      = ((rx : Int) + (SPI_TRANSFER_SIZE - 2), b1 % 256) ::
        ((rx : Int) + (SPI_TRANSFER_SIZE - 3), b0 % 256) :: s.mem ∧
    (rxTail [b0, b1, b2] (USART1_TX_IRQHandler (transferComplete DMA_CHANNEL_RX
      (spiDmaTransfer NULL rx L s)))).mem
      = ((rx : Int) + (SPI_TRANSFER_SIZE - 1), b2 % 256) ::
        ((rx : Int) + (SPI_TRANSFER_SIZE - 2), b1 % 256) ::
        ((rx : Int) + (SPI_TRANSFER_SIZE - 3), b0 % 256) :: s.mem ∧
    SPI_TRANSFER_SIZE - 3 = 7 ∧ SPI_TRANSFER_SIZE - 2 = 8 ∧ SPI_TRANSFER_SIZE - 1 = 9 ∧
    (L = SPI_TRANSFER_SIZE →
      SPI_TRANSFER_SIZE - 3 = (L - 3) + 0 ∧ SPI_TRANSFER_SIZE - 2 = (L - 3) + 1 ∧
      SPI_TRANSFER_SIZE - 1 = (L - 3) + 2) := by
  rw [spiDmaTransfer_auto rx L s hrx]
  refine ⟨by simp [USART1_TX_IRQHandler], ?_, ?_, ?_, by decide, by decide, by decide, ?_⟩
  · simp [rxTail, USART1_RX_IRQHandler, USART1_TX_IRQHandler, transferComplete,
      DMA_CHANNEL_RX, DMA_CHANNEL_TX, SPI_TRANSFER_SIZE, storeByte]
  · simp [rxTail, USART1_RX_IRQHandler, USART1_TX_IRQHandler, transferComplete,
      DMA_CHANNEL_RX, DMA_CHANNEL_TX, SPI_TRANSFER_SIZE, storeByte]
  · simp [rxTail, USART1_RX_IRQHandler, USART1_TX_IRQHandler, transferComplete,
      DMA_CHANNEL_RX, DMA_CHANNEL_TX, SPI_TRANSFER_SIZE, storeByte]
  · intro h
    subst h
    omega

/-- C4 (counterexample): in the auto-transmit transfer of length 5 into the
buffer at address 100, the first captured byte is stored at index 7, not at
index `(5 - 3) + 0 = 2`. -/
theorem C4_counterexample :
    (rxTail [1] (USART1_TX_IRQHandler (transferComplete DMA_CHANNEL_RX
      (spiDmaTransfer NULL 100 5 idleState)))).mem = [(100 + 7, 1)] ∧
    (rxTail [1] (USART1_TX_IRQHandler (transferComplete DMA_CHANNEL_RX
      (spiDmaTransfer NULL 100 5 idleState)))).mem ≠ [(100 + ((5 - 3) + 0), 1)] := by
  decide

/-- C4 (witness): the amended statement at the buffer address 100 and length 10,
with the tail bytes 8, 9 and 10. -/
theorem C4_tail_index_witness :
    100 ≠ NULL ∧
    (rxTail [8, 9, 10] (USART1_TX_IRQHandler (transferComplete DMA_CHANNEL_RX
      (spiDmaTransfer NULL 100 10 idleState)))).mem
      = [(109, 10), (108, 9), (107, 8)] :=
  ⟨by decide, (C4_tail_index 100 10 idleState 8 9 10 (by decide)).2.2.2.1⟩


/-! ## Claims C5 to C10: the wait loop, the completion callback and the modes -/

/-- No callback or handler sets a transfer flag: an inactive driver stays
inactive. -/
theorem apply_inactive (e : Event) (s : State) (h : spiIsActive s = false) :
    spiIsActive (e.apply s) = false := by
  simp only [spiIsActive, Bool.or_eq_false_iff] at h ⊢
  obtain ⟨hr, ht⟩ := h
  cases e with
  | dmaDone ch =>
    simp only [Event.apply, transferComplete]
    split_ifs <;> simp [hr, ht]
  | txIrq => simp [Event.apply, USART1_TX_IRQHandler, hr, ht]
  | rxIrq b =>
    simp only [Event.apply, USART1_RX_IRQHandler]
    split_ifs <;> simp [hr, ht]

/-- Induction along an execution of the wait loop. -/
theorem runWait_invariant (P : WaitCfg → Prop)
    (hstep : ∀ a c c1, P c → waitStep a c = some c1 → P c1) :
    ∀ (sched : List (Option Event)) (c0 c : WaitCfg),
      P c0 → runWait sched c0 = some c → P c := by
  intro sched
  induction sched with
  | nil =>
    intro c0 c h0 hrun
    simp [runWait] at hrun
    exact hrun ▸ h0
  | cons a as ih =>
    intro c0 c h0 hrun
    simp only [runWait] at hrun
    cases hs : waitStep a c0 with
    | none => simp [hs] at hrun
    | some c1 =>
      simp only [hs] at hrun
      exact ih c1 c (hstep a c0 c1 h0 hs) hrun

/-- Every step of the wait loop preserves `WaitInv`. -/
theorem waitInv_step (a : Option Event) (c c1 : WaitCfg) (h : WaitInv c)
    (hs : waitStep a c = some c1) : WaitInv c1 := by
  obtain ⟨pc, isActive, irqOff, s, reads, sleeps⟩ := c
  cases a with
  | none =>
    cases pc <;> simp [waitStep, threadStep, INT_Disable, INT_Enable, EMU_EnterEM1] at hs <;> subst hs <;>
      simp [WaitInv] at h ⊢
    · exact h
    · cases isActive <;> simp_all [WaitInv]
    · simp_all
    · simp_all
    · cases isActive <;> simp_all [WaitInv]
  | some e =>
    simp only [waitStep] at hs
    cases irqOff with
    | true => simp at hs
    | false =>
      simp at hs
      subst hs
      cases pc <;> simp [WaitInv] at h ⊢
      · exact ⟨h.1, fun hi => apply_inactive e s (h.2 hi)⟩
      · exact ⟨h.1, h.2.1, apply_inactive e s h.2.2⟩


/-- Every step of the wait loop preserves `WaitIdleInv`. -/
theorem waitIdleInv_step (a : Option Event) (c c1 : WaitCfg) (h : WaitIdleInv c)
    (hs : waitStep a c = some c1) : WaitIdleInv c1 := by
  obtain ⟨pc, isActive, irqOff, s, reads, sleeps⟩ := c
  cases a with
  | none =>
    cases pc <;> simp [waitStep, threadStep, INT_Disable, INT_Enable, EMU_EnterEM1] at hs <;> subst hs <;>
      simp [WaitIdleInv] at h ⊢ <;> simp_all
  | some e =>
    simp only [waitStep] at hs
    cases irqOff with
    | true => simp at hs
    | false =>
      simp at hs
      subst hs
      obtain ⟨h1, h2, h3⟩ := h
      exact ⟨apply_inactive e s h1, h2, h3⟩

/-- C5: in every execution of `sleepUntilTransferDone` in which handlers run only
while interrupts are enabled, the flags are read, the sleep decision is taken
and EM1 is entered with interrupts disabled; when the function has returned it
has read the flags at least once, its last observation `isActive` is false and
`txActive` and `rxActive` are both false; and if both flags are false on entry
the function does return, after a single check and without entering EM1. -/
theorem C5_wait_returns_inactive (s : State) (sched : List (Option Event)) (c : WaitCfg)
    (hrun : runWait sched (waitEntry s) = some c) :
    ((c.pc = .readFlags ∨ c.pc = .testSleep ∨ c.pc = .enterEM1 ∨ c.pc = .intEnable) →
      c.irqOff = true) ∧
    (c.pc = .returned →
      1 ≤ c.reads ∧ c.isActive = false ∧ c.s.txActive = false ∧ c.s.rxActive = false) ∧
    (spiIsActive s = false →
      c.sleeps = 0 ∧ c.pc ≠ .enterEM1 ∧ (c.pc = .returned → c.reads = 1) ∧
      ∃ c1, runWait (List.replicate 5 none) (waitEntry s) = some c1 ∧ c1.pc = .returned ∧
        c1.reads = 1 ∧ c1.sleeps = 0 ∧ c1.s = s) := by
  have hinv : WaitInv c :=
    runWait_invariant WaitInv waitInv_step sched (waitEntry s) c (by simp [WaitInv, waitEntry]) hrun
  refine ⟨?_, ?_, ?_⟩
  · obtain ⟨pc, isActive, irqOff, s', reads, sleeps⟩ := c
    rintro (h | h | h | h) <;> simp only at h <;> subst h <;> simp [WaitInv] at hinv <;>
      simp [hinv]
  · obtain ⟨pc, isActive, irqOff, s', reads, sleeps⟩ := c
    intro h
    simp only at h
    subst h
    simp [WaitInv, spiIsActive] at hinv
    simp [hinv]
  · intro hidle
    have hid : WaitIdleInv c :=
      runWait_invariant WaitIdleInv waitIdleInv_step sched (waitEntry s) c
        (by simp [WaitIdleInv, waitEntry, hidle]) hrun
    obtain ⟨pc, isActive, irqOff, s', reads, sleeps⟩ := c
    obtain ⟨h1, h2, h3⟩ := hid
    refine ⟨h2, ?_, ?_, ?_⟩
    · intro h
      simp only at h
      subst h
      exact h3
    · intro h
      simp only at h
      subst h
      exact h3.1
    · simp [List.replicate, runWait, waitStep, threadStep, INT_Disable, INT_Enable, waitEntry,
        hidle]

/-- C5 (witness): the wait loop entered during the TX-only transfer
`spiDmaTransfer(tx, NULL, 10)`: it reads the flags, sleeps, the TX DMA completion
callback runs once interrupts are enabled again, and the second check returns. -/
theorem C5_wait_returns_inactive_witness :
    runWait [none, none, none, none, none, some (Event.dmaDone DMA_CHANNEL_TX),
        none, none, none, none, none, none]
      (waitEntry (spiDmaTransfer 50 NULL 10 idleState))
      = some { pc := .returned, isActive := false, irqOff := false,
               s := transferComplete DMA_CHANNEL_TX (spiDmaTransfer 50 NULL 10 idleState),
               reads := 2, sleeps := 1 } ∧
    (transferComplete DMA_CHANNEL_TX (spiDmaTransfer 50 NULL 10 idleState)).txActive = false ∧
    (transferComplete DMA_CHANNEL_TX (spiDmaTransfer 50 NULL 10 idleState)).rxActive = false :=
  ⟨by decide,
   ((C5_wait_returns_inactive (spiDmaTransfer 50 NULL 10 idleState)
      [none, none, none, none, none, some (Event.dmaDone DMA_CHANNEL_TX),
        none, none, none, none, none, none]
      { pc := .returned, isActive := false, irqOff := false,
        s := transferComplete DMA_CHANNEL_TX (spiDmaTransfer 50 NULL 10 idleState),
        reads := 2, sleeps := 1 } (by decide)).2.1 rfl).2.2⟩


/-- C6 (code evaluated): after a complete auto-transmit transfer of 10 bytes
started from an idle state, both flags are false and the byte-available enable
is clear, but `USART1->IEN` equals `USART_IEN_TXC`: the transmit-complete
interrupt enable, set by `transferComplete`, is still set, because
`USART1_TX_IRQHandler` executes `IEN &= USART_IEN_TXC`. -/
theorem C6_txc_stays_enabled (buf : Nat) (s : State) (b0 b1 b2 : Nat)
    (hbuf : buf ≠ NULL) (hs : Idle s) :
    (rxTail [b0, b1, b2] (USART1_TX_IRQHandler (transferComplete DMA_CHANNEL_RX
      (spiDmaTransfer NULL buf 10 s)))).txActive = false ∧
    (rxTail [b0, b1, b2] (USART1_TX_IRQHandler (transferComplete DMA_CHANNEL_RX
      (spiDmaTransfer NULL buf 10 s)))).rxActive = false ∧
    (rxTail [b0, b1, b2] (USART1_TX_IRQHandler (transferComplete DMA_CHANNEL_RX
      (spiDmaTransfer NULL buf 10 s)))).IEN = USART_IEN_TXC ∧
    bitSet (rxTail [b0, b1, b2] (USART1_TX_IRQHandler (transferComplete DMA_CHANNEL_RX
      (spiDmaTransfer NULL buf 10 s)))).IEN USART_IEN_TXC = true ∧
    bitSet (rxTail [b0, b1, b2] (USART1_TX_IRQHandler (transferComplete DMA_CHANNEL_RX
      (spiDmaTransfer NULL buf 10 s)))).IEN USART_IEN_RXDATAV = false := by
  obtain ⟨_, _, hien, _, _⟩ := hs
  rw [rxTail_three _ _ _ _ (by simp [USART1_TX_IRQHandler])]
  rw [spiDmaTransfer_auto buf 10 s hbuf]
  simp [USART1_TX_IRQHandler, transferComplete, DMA_CHANNEL_RX, DMA_CHANNEL_TX, hien]
  decide

/-- C6 (witness): the evaluation at the buffer address 100 from the initial idle
state, with the tail bytes 8, 9 and 10. -/
theorem C6_txc_stays_enabled_witness :
    (100 ≠ NULL ∧ Idle idleState) ∧
    bitSet (rxTail [8, 9, 10] (USART1_TX_IRQHandler (transferComplete DMA_CHANNEL_RX
      (spiDmaTransfer NULL 100 10 idleState)))).IEN USART_IEN_TXC = true :=
  ⟨⟨by decide, by decide⟩,
   (C6_txc_stays_enabled 100 idleState 8 9 10 (by decide) (by decide)).2.2.2.1⟩

/-- C7: tie-break in non-auto-transmit mode. After `spiDmaTransfer(tx, rx, bytes)`
with both buffers present both flags are true; after a single DMA completion
callback (TX alone or RX alone) `spiIsActive()` is still true; after both
callbacks, in either order, the resulting state is the same and `spiIsActive()`
is false. -/
theorem C7_tie_break (tx rx : Nat) (bytes : Int) (s : State)
    (htx : tx ≠ NULL) (hrx : rx ≠ NULL) :
    (spiDmaTransfer tx rx bytes s).txActive = true ∧
    (spiDmaTransfer tx rx bytes s).rxActive = true ∧
    spiIsActive (transferComplete DMA_CHANNEL_TX (spiDmaTransfer tx rx bytes s)) = true ∧
    spiIsActive (transferComplete DMA_CHANNEL_RX (spiDmaTransfer tx rx bytes s)) = true ∧
    transferComplete DMA_CHANNEL_RX (transferComplete DMA_CHANNEL_TX
        (spiDmaTransfer tx rx bytes s))
      = transferComplete DMA_CHANNEL_TX (transferComplete DMA_CHANNEL_RX
        (spiDmaTransfer tx rx bytes s)) ∧
    spiIsActive (transferComplete DMA_CHANNEL_RX (transferComplete DMA_CHANNEL_TX
        (spiDmaTransfer tx rx bytes s))) = false ∧
    spiIsActive (transferComplete DMA_CHANNEL_TX (transferComplete DMA_CHANNEL_RX
        (spiDmaTransfer tx rx bytes s))) = false := by
  rw [spiDmaTransfer_dma tx rx bytes s htx hrx]
  simp [transferComplete, spiIsActive, DMA_CHANNEL_RX, DMA_CHANNEL_TX]

/-- C7 (witness): the tie-break statement for the 10 byte transfer from the
buffer at address 50 into the buffer at address 100. -/
theorem C7_tie_break_witness :
    (50 ≠ NULL ∧ 100 ≠ NULL) ∧
    spiIsActive (transferComplete DMA_CHANNEL_TX (spiDmaTransfer 50 100 10 idleState)) = true ∧
    spiIsActive (transferComplete DMA_CHANNEL_RX (spiDmaTransfer 50 100 10 idleState)) = true ∧
    spiIsActive (transferComplete DMA_CHANNEL_RX (transferComplete DMA_CHANNEL_TX
        (spiDmaTransfer 50 100 10 idleState))) = false :=
  ⟨⟨by decide, by decide⟩,
   (C7_tie_break 50 100 10 idleState (by decide) (by decide)).2.2.1,
   (C7_tie_break 50 100 10 idleState (by decide) (by decide)).2.2.2.1,
   (C7_tie_break 50 100 10 idleState (by decide) (by decide)).2.2.2.2.2.1⟩

/-- C8: the effects of `transferComplete(channel, ...)`. For the TX channel it
sets `txActive = false` and changes nothing else; for the RX channel with
`autoTx` false it sets `rxActive = false` and changes nothing else; for the RX
channel with `autoTx` true it leaves both flags unchanged and only sets the TXC
bit of `USART1->IEN`; for any other channel value it changes nothing. -/
theorem C8_transferComplete_frame (channel : Nat) (s : State) :
    (channel = DMA_CHANNEL_TX → transferComplete channel s = { s with txActive := false }) ∧
    (channel = DMA_CHANNEL_RX → s.autoTx = false →
      transferComplete channel s = { s with rxActive := false }) ∧
    (channel = DMA_CHANNEL_RX → s.autoTx = true →
      transferComplete channel s = { s with IEN := s.IEN ||| USART_IEN_TXC } ∧
      (transferComplete channel s).txActive = s.txActive ∧
      (transferComplete channel s).rxActive = s.rxActive ∧
      bitSet (transferComplete channel s).IEN USART_IEN_TXC = true ∧
      ∀ i, i ≠ 0 → (transferComplete channel s).IEN.testBit i = s.IEN.testBit i) ∧
    (channel ≠ DMA_CHANNEL_TX → channel ≠ DMA_CHANNEL_RX → transferComplete channel s = s) := by
  refine ⟨?_, ?_, ?_, ?_⟩
  · intro h
    simp [transferComplete, h]
  · intro h ha
    simp [transferComplete, h, ha, DMA_CHANNEL_RX, DMA_CHANNEL_TX]
  · intro h ha
    have heq : transferComplete channel s = { s with IEN := s.IEN ||| USART_IEN_TXC } := by
      simp [transferComplete, h, ha, DMA_CHANNEL_RX, DMA_CHANNEL_TX]
    rw [heq]
    refine ⟨rfl, rfl, rfl, bitSet_or_mask _ _ (by decide), ?_⟩
    intro i hi
    simp [Nat.testBit_or, USART_IEN_TXC, Nat.testBit_one_eq_true_iff_self_eq_zero, hi]
  · intro h1 h2
    simp [transferComplete, h1, h2]

/-- C8 (witness): the RX completion in auto-transmit mode, evaluated after
`spiDmaTransfer(NULL, 100, 10)` from the initial idle state. -/
theorem C8_transferComplete_frame_witness :
    (DMA_CHANNEL_RX = DMA_CHANNEL_RX ∧ (spiDmaTransfer NULL 100 10 idleState).autoTx = true) ∧
    transferComplete DMA_CHANNEL_RX (spiDmaTransfer NULL 100 10 idleState)
      = { spiDmaTransfer NULL 100 10 idleState with IEN := 1 } :=
  ⟨⟨rfl, by decide⟩,
   ((C8_transferComplete_frame DMA_CHANNEL_RX (spiDmaTransfer NULL 100 10 idleState)).2.2.1
      rfl (by decide)).1⟩


/-- Induction along a sequence of enabled events. -/
theorem runEvents_invariant (P : State → Prop)
    (hstep : ∀ (e : Event) (s : State), P s → e.enabled s = true → P (e.apply s)) :
    ∀ (es : List Event) (s0 s1 : State), P s0 → runEvents es s0 = some s1 → P s1 := by
  intro es
  induction es with
  | nil =>
    intro s0 s1 h0 hrun
    simp [runEvents] at hrun
    exact hrun ▸ h0
  | cons e es ih =>
    intro s0 s1 h0 hrun
    simp only [runEvents] at hrun
    split_ifs at hrun with he
    exact ih _ _ (hstep e s0 h0 he) hrun

/-- No callback or handler activates or changes a DMA channel. -/
theorem apply_dma (e : Event) (s : State) :
    (e.apply s).dmaTx = s.dmaTx ∧ (e.apply s).dmaRx = s.dmaRx := by
  cases e with
  | dmaDone ch =>
    simp only [Event.apply, transferComplete]
    split_ifs <;> simp
  | txIrq => simp [Event.apply, USART1_TX_IRQHandler]
  | rxIrq b =>
    simp only [Event.apply, USART1_RX_IRQHandler]
    split_ifs <;> simp

/-- No callback or handler sets `rxActive`. -/
theorem apply_rxActive_false (e : Event) (s : State) (h : s.rxActive = false) :
    (e.apply s).rxActive = false := by
  cases e with
  | dmaDone ch =>
    simp only [Event.apply, transferComplete]
    split_ifs <;> simp [h]
  | txIrq => simp [Event.apply, USART1_TX_IRQHandler, h]
  | rxIrq b =>
    simp only [Event.apply, USART1_RX_IRQHandler]
    split_ifs <;> simp [h]

/-- With `autoTx` false and no USART1 interrupt enabled, an enabled event keeps
both. -/
theorem dmaMode_step (e : Event) (s : State) (h : s.autoTx = false ∧ s.IEN = 0)
    (he : e.enabled s = true) :
    (e.apply s).autoTx = false ∧ (e.apply s).IEN = 0 := by
  obtain ⟨ha, hi⟩ := h
  cases e with
  | dmaDone ch =>
    simp only [Event.apply, transferComplete]
    split_ifs <;> simp_all
  | txIrq => simp [Event.enabled, bitSet, hi] at he
  | rxIrq b => simp [Event.enabled, bitSet, hi] at he

/-- With `autoTx` false and no USART1 interrupt enabled, only DMA completion
callbacks can occur. -/
theorem dmaMode_events (es : List Event) :
    ∀ (s0 s1 : State), s0.autoTx = false → s0.IEN = 0 → runEvents es s0 = some s1 →
      ∀ e ∈ es, ∃ ch, e = Event.dmaDone ch := by
  induction es with
  | nil => intro s0 s1 _ _ _ e he; simp at he
  | cons e es ih =>
    intro s0 s1 ha hi hrun e' he'
    simp only [runEvents] at hrun
    split_ifs at hrun with hen
    obtain ⟨ha1, hi1⟩ := dmaMode_step e s0 ⟨ha, hi⟩ hen
    rcases List.mem_cons.mp he' with rfl | hmem
    · cases e' with
      | dmaDone ch => exact ⟨ch, rfl⟩
      | txIrq => simp [Event.enabled, bitSet, hi] at hen
      | rxIrq b => simp [Event.enabled, bitSet, hi] at hen
    · exact ih _ s1 ha1 hi1 hrun e' hmem

/-- C9: mode exclusivity. (a) `spiDmaTransfer` with `txBuffer` absent sets
`autoTx` and the AUTOTX control bit and leaves the TX DMA channel as it was
(not activated from an idle state), and no later callback or handler activates
it; (b) for a transfer launched with `txBuffer` present from an idle state, in
every state reachable by DMA completion callbacks and by USART1 handlers fired
only when their interrupt-enable bit is set, the TXC and RXDATAV interrupt
enables are clear, and neither `USART1_TX_IRQHandler` nor `USART1_RX_IRQHandler`
occurs among the events. -/
theorem C9_mode_exclusivity (tx rx : Nat) (bytes : Int) (s : State) (es : List Event)
    (s1 : State) (hs : Idle s) :
    ((spiDmaTransfer NULL rx bytes s).autoTx = true ∧
      bitSet (spiDmaTransfer NULL rx bytes s).CTRL USART_CTRL_AUTOTX = true ∧
      (spiDmaTransfer NULL rx bytes s).dmaTx = none ∧
      (runEvents es (spiDmaTransfer NULL rx bytes s) = some s1 → s1.dmaTx = none)) ∧
    (tx ≠ NULL → runEvents es (spiDmaTransfer tx rx bytes s) = some s1 →
      bitSet s1.IEN USART_IEN_TXC = false ∧ bitSet s1.IEN USART_IEN_RXDATAV = false ∧
      Event.enabled Event.txIrq s1 = false ∧
      (∀ b, Event.enabled (Event.rxIrq b) s1 = false) ∧
      ∀ e ∈ es, ∃ ch, e = Event.dmaDone ch) := by
  obtain ⟨_, _, hien, _, hdtx⟩ := hs
  have hA : (spiDmaTransfer NULL rx bytes s).autoTx = true ∧
      (spiDmaTransfer NULL rx bytes s).CTRL = s.CTRL ||| USART_CTRL_AUTOTX ∧
      (spiDmaTransfer NULL rx bytes s).dmaTx = none := by
    by_cases hrx : rx = NULL
    · simp [spiDmaTransfer, hrx, hdtx]
    · simp [spiDmaTransfer_auto rx bytes s hrx, hdtx]
  refine ⟨⟨hA.1, ?_, hA.2.2, ?_⟩, ?_⟩
  · rw [hA.2.1]
    exact bitSet_or_mask _ _ (by decide)
  · intro hrun
    exact runEvents_invariant (fun t => t.dmaTx = none)
      (fun e t ht _ => (apply_dma e t).1.trans ht) es _ s1 hA.2.2 hrun
  · intro htx hrun
    have hB : (spiDmaTransfer tx rx bytes s).autoTx = false ∧
        (spiDmaTransfer tx rx bytes s).IEN = 0 := by
      by_cases hrx : rx = NULL
      · simp [spiDmaTransfer, hrx, htx, DMA_ActivateBasic, DMA_CHANNEL_TX, hien]
      · simp [spiDmaTransfer_dma tx rx bytes s htx hrx, hien]
    have hinv := runEvents_invariant (fun t => t.autoTx = false ∧ t.IEN = 0)
      dmaMode_step es _ s1 hB hrun
    refine ⟨?_, ?_, ?_, ?_, dmaMode_events es _ s1 hB.1 hB.2 hrun⟩ <;>
      simp [Event.enabled, bitSet, hinv.2]

/-- C9 (witness): the 10 byte transfer from the buffer at 50 into the buffer at
100, with the TX and then the RX DMA completion callback. -/
theorem C9_mode_exclusivity_witness :
    (Idle idleState ∧ 50 ≠ NULL ∧
      runEvents [Event.dmaDone DMA_CHANNEL_TX, Event.dmaDone DMA_CHANNEL_RX]
        (spiDmaTransfer 50 100 10 idleState)
        = some (transferComplete DMA_CHANNEL_RX (transferComplete DMA_CHANNEL_TX
            (spiDmaTransfer 50 100 10 idleState)))) ∧
    bitSet (transferComplete DMA_CHANNEL_RX (transferComplete DMA_CHANNEL_TX
      (spiDmaTransfer 50 100 10 idleState))).IEN USART_IEN_TXC = false :=
  ⟨⟨by decide, by decide, by decide⟩,
   ((C9_mode_exclusivity 50 100 10 idleState
      [Event.dmaDone DMA_CHANNEL_TX, Event.dmaDone DMA_CHANNEL_RX]
      (transferComplete DMA_CHANNEL_RX (transferComplete DMA_CHANNEL_TX
        (spiDmaTransfer 50 100 10 idleState))) (by decide)).2 (by decide) (by decide)).1⟩

/-- C10: Scenario A, for every TX-only transfer. For
`spiDmaTransfer(txBuffer, NULL, bytes)` with `txBuffer` present, from an idle
state, the RX DMA channel is not activated and `rxActive` is false after the
launch and in every state reached by later callbacks and handlers, `txActive`
becomes true, the TX DMA channel is programmed with the count `bytes - 1`, and
one TX DMA completion callback sets `txActive` false so that `spiIsActive()`
returns false. -/
theorem C10_scenario_A (tx : Nat) (bytes : Int) (s : State) (es : List Event) (s1 : State)
    (htx : tx ≠ NULL) (hs : Idle s) :
    (spiDmaTransfer tx NULL bytes s).dmaRx = none ∧
    (spiDmaTransfer tx NULL bytes s).rxActive = false ∧
    (spiDmaTransfer tx NULL bytes s).txActive = true ∧
    (spiDmaTransfer tx NULL bytes s).dmaTx = some (tx, bytes - 1) ∧
    (transferComplete DMA_CHANNEL_TX (spiDmaTransfer tx NULL bytes s)).txActive = false ∧
    (transferComplete DMA_CHANNEL_TX (spiDmaTransfer tx NULL bytes s)).rxActive = false ∧
    (transferComplete DMA_CHANNEL_TX (spiDmaTransfer tx NULL bytes s)).dmaRx = none ∧
    spiIsActive (transferComplete DMA_CHANNEL_TX (spiDmaTransfer tx NULL bytes s)) = false ∧
    (runEvents es (spiDmaTransfer tx NULL bytes s) = some s1 →
      s1.rxActive = false ∧ s1.dmaRx = none) := by
  obtain ⟨_, hrx, _, hdrx, _⟩ := hs
  have h1 : spiDmaTransfer tx NULL bytes s =
      { s with autoTx := false, txActive := true, CMD := USART_CMD_CLEARTX :: s.CMD,
               dmaTx := some (tx, bytes - 1) } := by
    simp [spiDmaTransfer, htx, DMA_ActivateBasic, DMA_CHANNEL_TX]
  refine ⟨by simp [h1, hdrx], by simp [h1, hrx], by simp [h1], by simp [h1],
    by simp [h1, transferComplete], by simp [h1, transferComplete, hrx],
    by simp [h1, transferComplete, hdrx], by simp [h1, transferComplete, spiIsActive, hrx], ?_⟩
  intro hrun
  exact runEvents_invariant (fun t => t.rxActive = false ∧ t.dmaRx = none)
    (fun e t ht _ => ⟨apply_rxActive_false e t ht.1, (apply_dma e t).2.trans ht.2⟩)
    es _ s1 ⟨by simp [h1, hrx], by simp [h1, hdrx]⟩ hrun

/-- C10 (witness): the transfer of the first 10 bytes of the text at address 50,
where the TX DMA channel is programmed with the count 9. -/
theorem C10_scenario_A_witness :
    (50 ≠ NULL ∧ Idle idleState) ∧
    (spiDmaTransfer 50 NULL 10 idleState).dmaTx = some (50, 9) ∧
    spiIsActive (transferComplete DMA_CHANNEL_TX (spiDmaTransfer 50 NULL 10 idleState))
      = false :=
  ⟨⟨by decide, by decide⟩,
   (C10_scenario_A 50 10 idleState [] idleState (by decide) (by decide)).2.2.2.1,
   (C10_scenario_A 50 10 idleState [] idleState (by decide) (by decide)).2.2.2.2.2.2.2.1⟩


/-! ## Claims C11 to C14: repeated transfers, the null buffer and the flags -/

/-- The state after the complete auto-transmit event sequence into `buf`. -/
theorem autoTxSequence_state (buf : Nat) (b0 b1 b2 : Nat) (s : State) (hbuf : buf ≠ NULL) :
    autoTxSequence buf b0 b1 b2 s =
      { s with autoTx := true, rxActive := false, txActive := false, rxBufferG := buf,
               bytesLeft := 0,
               CMD := USART_CMD_CLEARTX :: USART_CMD_CLEARRX :: s.CMD,
               IFC := USART_IFC_TXC :: s.IFC,
               CTRL := (s.CTRL ||| USART_CTRL_AUTOTX) &&& bnot32 USART_CTRL_AUTOTX,
               mem := storeByte (storeByte (storeByte s.mem ((buf : Int) + 7) b0)
                        ((buf : Int) + 8) b1) ((buf : Int) + 9) b2,
               dmaRx := some (buf, 6),
               IEN := (((s.IEN ||| USART_IEN_TXC) &&& USART_IEN_TXC) ||| USART_IEN_RXDATAV)
                        &&& bnot32 USART_IEN_RXDATAV } := by
  unfold autoTxSequence
  rw [rxTail_three _ _ _ _ (by simp [USART1_TX_IRQHandler])]
  rw [spiDmaTransfer_auto buf 10 s hbuf]
  simp [USART1_TX_IRQHandler, transferComplete, DMA_CHANNEL_RX, DMA_CHANNEL_TX]

/-- C11: sequential auto-transmit transfers are independent. Running the
complete auto-transmit event sequence twice in succession, into the buffer `A`
and then into a disjoint buffer `B`, the second run programs the same RX DMA
count 6, starts its tail capture with the counter at 3 (the first run left it
at 0), stores its three tail bytes at `B[7..9]`, writes nothing into `A[0..9]`
and ends with both flags false, as the first run did for `A`. -/
theorem C11_sequential_independent (A B : Nat) (a0 a1 a2 c0 c1 c2 : Nat) (s : State)
    (hA : A ≠ NULL) (hB : B ≠ NULL) (hAB : (A : Int) + 10 ≤ B ∨ (B : Int) + 10 ≤ A) :
    (spiDmaTransfer NULL A 10 s).dmaRx = some (A, 6) ∧
    (spiDmaTransfer NULL B 10 (autoTxSequence A a0 a1 a2 s)).dmaRx = some (B, 6) ∧
    (autoTxSequence A a0 a1 a2 s).bytesLeft = 0 ∧
    (USART1_TX_IRQHandler (transferComplete DMA_CHANNEL_RX
      (spiDmaTransfer NULL A 10 s))).bytesLeft = 3 ∧
    (USART1_TX_IRQHandler (transferComplete DMA_CHANNEL_RX
      (spiDmaTransfer NULL B 10 (autoTxSequence A a0 a1 a2 s)))).bytesLeft = 3 ∧
    (autoTxSequence A a0 a1 a2 s).mem =
      storeByte (storeByte (storeByte s.mem ((A : Int) + 7) a0) ((A : Int) + 8) a1)
        ((A : Int) + 9) a2 ∧
    (autoTxSequence B c0 c1 c2 (autoTxSequence A a0 a1 a2 s)).mem =
      storeByte (storeByte (storeByte (autoTxSequence A a0 a1 a2 s).mem
        ((B : Int) + 7) c0) ((B : Int) + 8) c1) ((B : Int) + 9) c2 ∧
    (∀ i : Int, 0 ≤ i → i < 10 →
      load (autoTxSequence B c0 c1 c2 (autoTxSequence A a0 a1 a2 s)).mem ((A : Int) + i)
        = load (autoTxSequence A a0 a1 a2 s).mem ((A : Int) + i)) ∧
    (autoTxSequence A a0 a1 a2 s).txActive = false ∧
    (autoTxSequence A a0 a1 a2 s).rxActive = false ∧
    (autoTxSequence B c0 c1 c2 (autoTxSequence A a0 a1 a2 s)).txActive = false ∧
    (autoTxSequence B c0 c1 c2 (autoTxSequence A a0 a1 a2 s)).rxActive = false := by
  have h1 := autoTxSequence_state A a0 a1 a2 s hA
  have h2 := autoTxSequence_state B c0 c1 c2 (autoTxSequence A a0 a1 a2 s) hB
  refine ⟨by simp [spiDmaTransfer_auto A 10 s hA],
    by simp [spiDmaTransfer_auto B 10 _ hB], by rw [h1], by simp [USART1_TX_IRQHandler],
    by simp [USART1_TX_IRQHandler], by rw [h1], by rw [h2], ?_, by rw [h1], by rw [h1],
    by rw [h2], by rw [h2]⟩
  intro i hi0 hi10
  rw [h2]
  simp only [load_storeByte]
  have e7 : ¬ ((B : Int) + 7 = A + i) := by omega
  have e8 : ¬ ((B : Int) + 8 = A + i) := by omega
  have e9 : ¬ ((B : Int) + 9 = A + i) := by omega
  simp [e7, e8, e9]

/-- C11 (witness): the two runs into the buffers at the addresses 100 and 200,
with the tail bytes 1, 2, 3 and then 4, 5, 6. -/
theorem C11_sequential_independent_witness :
    (100 ≠ NULL ∧ 200 ≠ NULL ∧ ((100 : Int) + 10 ≤ 200 ∨ (200 : Int) + 10 ≤ 100)) ∧
    (autoTxSequence 200 4 5 6 (autoTxSequence 100 1 2 3 idleState)).mem =
      [(209, 6), (208, 5), (207, 4), (109, 3), (108, 2), (107, 1)] :=
  ⟨⟨by decide, by decide, by decide⟩,
   ((C11_sequential_independent 100 200 1 2 3 4 5 6 idleState (by decide) (by decide)
      (by decide)).2.2.2.2.2.2.1).trans (by decide)⟩

/-- C12 (code evaluated): after `spiDmaTransfer(NULL, NULL, bytes)` the receive
pointer `rxBufferG` is null, and after `USART1_TX_IRQHandler` each
`USART1_RX_IRQHandler` invocation stores its byte through it, at the addresses
`NULL + 7`, `NULL + 8` and `NULL + 9`; the counter is decremented to 0 and the
third invocation clears both flags. The handler is reached with the null
pointer by enabled steps: after a complete auto-transmit transfer into the
buffer at address 100 the TXC interrupt is still enabled, so after
`spiDmaTransfer(NULL, NULL, 10)` the handlers can fire, and the byte 90 is
stored at address 7. -/
theorem C12_null_store (bytes : Int) (s : State) (b0 b1 b2 : Nat) :
    (runActions [Action.launch NULL 100 10, Action.event (Event.dmaDone DMA_CHANNEL_RX),
        Action.event Event.txIrq, Action.event (Event.rxIrq 1), Action.event (Event.rxIrq 2),
        Action.event (Event.rxIrq 3), Action.launch NULL NULL 10, Action.event Event.txIrq,
        Action.event (Event.rxIrq 90)] idleState).map (fun t => (t.rxBufferG, t.mem.head?))
      = some (NULL, some ((NULL : Int) + 7, 90)) ∧
    (spiDmaTransfer NULL NULL bytes s).rxBufferG = NULL ∧
    (rxTail [b0] (USART1_TX_IRQHandler (spiDmaTransfer NULL NULL bytes s))).mem
      = ((NULL : Int) + 7, b0 % 256) :: s.mem ∧
    (rxTail [b0, b1, b2] (USART1_TX_IRQHandler (spiDmaTransfer NULL NULL bytes s))).mem
      = ((NULL : Int) + 9, b2 % 256) :: ((NULL : Int) + 8, b1 % 256) ::
        ((NULL : Int) + 7, b0 % 256) :: s.mem ∧
    (rxTail [b0, b1, b2]
      (USART1_TX_IRQHandler (spiDmaTransfer NULL NULL bytes s))).bytesLeft = 0 ∧
    (rxTail [b0, b1, b2]
      (USART1_TX_IRQHandler (spiDmaTransfer NULL NULL bytes s))).txActive = false ∧
    (rxTail [b0, b1, b2]
      (USART1_TX_IRQHandler (spiDmaTransfer NULL NULL bytes s))).rxActive = false := by
  refine ⟨by decide, ?_⟩
  rw [rxTail_three _ _ _ _ (by simp [USART1_TX_IRQHandler])]
  simp [rxTail, USART1_RX_IRQHandler, USART1_TX_IRQHandler, spiDmaTransfer, NULL,
    SPI_TRANSFER_SIZE, storeByte]


/-- No callback or handler sets `txActive`. -/
theorem apply_txActive_false (e : Event) (s : State) (h : s.txActive = false) :
    (e.apply s).txActive = false := by
  cases e with
  | dmaDone ch =>
    simp only [Event.apply, transferComplete]
    split_ifs <;> simp [h]
  | txIrq => simp [Event.apply, USART1_TX_IRQHandler, h]
  | rxIrq b =>
    simp only [Event.apply, USART1_RX_IRQHandler]
    split_ifs <;> simp [h]

/-- C13: the transfer flags are set only by the launcher and only cleared by
handlers. The launcher sets `txActive`; `transferComplete` (any channel),
`USART1_TX_IRQHandler` and `USART1_RX_IRQHandler` never change `txActive` or
`rxActive` from false to true, and `USART1_TX_IRQHandler` changes neither flag;
hence once `spiIsActive()` is false it stays false along every sequence of
callbacks and handlers. -/
theorem C13_flags_only_cleared (s : State) :
    (∀ tx rx bytes, (spiDmaTransfer tx rx bytes s).txActive = true) ∧
    (∀ channel, s.txActive = false → (transferComplete channel s).txActive = false) ∧
    (∀ channel, s.rxActive = false → (transferComplete channel s).rxActive = false) ∧
    (∀ b, s.txActive = false → (USART1_RX_IRQHandler b s).txActive = false) ∧
    (∀ b, s.rxActive = false → (USART1_RX_IRQHandler b s).rxActive = false) ∧
    (USART1_TX_IRQHandler s).txActive = s.txActive ∧
    (USART1_TX_IRQHandler s).rxActive = s.rxActive ∧
    (spiIsActive s = false →
      (∀ e : Event, spiIsActive (e.apply s) = false) ∧
      (∀ es : List Event, spiIsActive (es.foldl (fun t e => e.apply t) s) = false) ∧
      ∀ (es : List Event) (s1 : State), runEvents es s = some s1 → spiIsActive s1 = false) := by
  refine ⟨?_, fun ch h => apply_txActive_false (.dmaDone ch) s h,
    fun ch h => apply_rxActive_false (.dmaDone ch) s h,
    fun b h => apply_txActive_false (.rxIrq b) s h,
    fun b h => apply_rxActive_false (.rxIrq b) s h, rfl, rfl, ?_⟩
  · intro tx rx bytes
    simp only [spiDmaTransfer, DMA_ActivateBasic]
    split_ifs <;> simp
  · intro h
    refine ⟨fun e => apply_inactive e s h, ?_, ?_⟩
    · intro es
      induction es generalizing s with
      | nil => simpa using h
      | cons e es ih => exact ih (e.apply s) (apply_inactive e s h)
    · intro es s1 hrun
      exact runEvents_invariant (fun t => spiIsActive t = false)
        (fun e t ht _ => apply_inactive e t ht) es s s1 h hrun

/-- C13 (witness): after the TX-only transfer from the buffer at address 50 has
completed, a late RX completion callback and both handlers leave the driver
inactive. -/
theorem C13_flags_only_cleared_witness :
    spiIsActive (transferComplete DMA_CHANNEL_TX (spiDmaTransfer 50 NULL 10 idleState))
      = false ∧
    spiIsActive ([Event.dmaDone DMA_CHANNEL_RX, Event.txIrq, Event.rxIrq 7].foldl
      (fun t e => e.apply t)
      (transferComplete DMA_CHANNEL_TX (spiDmaTransfer 50 NULL 10 idleState))) = false :=
  ⟨by decide,
   ((C13_flags_only_cleared
      (transferComplete DMA_CHANNEL_TX (spiDmaTransfer 50 NULL 10 idleState))).2.2.2.2.2.2.2
      (by decide)).2.1 [Event.dmaDone DMA_CHANNEL_RX, Event.txIrq, Event.rxIrq 7]⟩

/-- C14: `spiIsActive()` returns true if and only if `txActive` or `rxActive` is
true, and changes no state: the statement of the wait loop that calls it leaves
the driver state as it was and assigns the returned value to `isActive`. -/
theorem C14_spiIsActive (s : State) (c : WaitCfg) :
    (spiIsActive s = true ↔ (s.txActive = true ∨ s.rxActive = true)) ∧
    (spiIsActive s = false ↔ (s.txActive = false ∧ s.rxActive = false)) ∧
    (threadStep { c with pc := .readFlags }).s = c.s ∧
    (threadStep { c with pc := .readFlags }).isActive = spiIsActive c.s := by
  refine ⟨?_, ?_, rfl, rfl⟩
  · cases hr : s.rxActive <;> cases ht : s.txActive <;> simp [spiIsActive, hr, ht]
  · cases hr : s.rxActive <;> cases ht : s.txActive <;> simp [spiIsActive, hr, ht]


/-! ## Claim C15: no missed wake -/

/-- Every step of the wait loop preserves `WaitInv` together with both flags
being false. -/
theorem waitQuiet_step (a : Option Event) (c c1 : WaitCfg)
    (h : WaitInv c ∧ spiIsActive c.s = false) (hs : waitStep a c = some c1) :
    WaitInv c1 ∧ spiIsActive c1.s = false := by
  refine ⟨waitInv_step a c c1 h.1 hs, ?_⟩
  obtain ⟨pc, isActive, irqOff, s, reads, sleeps⟩ := c
  cases a with
  | none =>
    cases pc <;> simp [waitStep, threadStep, INT_Disable, INT_Enable, EMU_EnterEM1] at hs <;>
      subst hs
    · exact h.2
    · exact h.2
    · cases isActive <;> exact h.2
    · exact h.2
    · exact h.2
    · cases isActive <;> exact h.2
  | some e =>
    simp only [waitStep] at hs
    cases irqOff with
    | true => simp at hs
    | false =>
      simp at hs
      subst hs
      exact apply_inactive e s h.2

/-- With both flags false every statement of the loop lowers `waitRank` by one
and every handler leaves it as it is. -/
theorem waitRank_step (a : Option Event) (c c1 : WaitCfg)
    (h : WaitInv c ∧ spiIsActive c.s = false) (hs : waitStep a c = some c1) :
    (if a = none then 1 else 0) + waitRank c1 = waitRank c := by
  obtain ⟨hinv, hq⟩ := h
  obtain ⟨pc, isActive, irqOff, s, reads, sleeps⟩ := c
  simp only at hq
  cases a with
  | none =>
    cases pc <;> simp [waitStep, threadStep, INT_Disable, INT_Enable, EMU_EnterEM1] at hs <;>
      subst hs <;> simp [WaitInv, hq] at hinv <;> simp [waitRank, hq, hinv]
    · cases isActive <;> simp
  | some e =>
    simp only [waitStep] at hs
    cases irqOff with
    | true => simp at hs
    | false =>
      simp at hs
      subst hs
      cases pc <;> simp [waitRank]

/-- Along an execution with both flags false, the statements executed and the
remaining `waitRank` add up to the initial `waitRank`. -/
theorem waitRank_run (sched : List (Option Event)) :
    ∀ (c c1 : WaitCfg), WaitInv c ∧ spiIsActive c.s = false → runWait sched c = some c1 →
      sched.count none + waitRank c1 = waitRank c := by
  induction sched with
  | nil =>
    intro c c1 _ hrun
    simp [runWait] at hrun
    simp [hrun]
  | cons a as ih =>
    intro c c1 h hrun
    simp only [runWait] at hrun
    cases hs : waitStep a c with
    | none => simp [hs] at hrun
    | some c2 =>
      simp only [hs] at hrun
      have h1 := waitRank_step a c c2 h hs
      have h2 := ih c2 c1 (waitQuiet_step a c c2 h hs) hrun
      cases a with
      | none => simp at h1 ⊢; omega
      | some e => simp at h1 ⊢; omega

/-- With both flags false the loop alone returns in `waitRank` statements. -/
theorem waitRank_returns (c : WaitCfg) (h : WaitInv c) (hq : spiIsActive c.s = false) :
    ∃ c1, runWait (List.replicate (waitRank c) none) c = some c1 ∧ c1.pc = .returned := by
  obtain ⟨pc, isActive, irqOff, s, reads, sleeps⟩ := c
  simp only at hq
  cases pc <;> simp [WaitInv, hq] at h <;>
    simp [waitRank, List.replicate, runWait, waitStep, threadStep, INT_Disable, INT_Enable,
      EMU_EnterEM1, hq, h]
  cases isActive <;>
    simp [List.replicate, runWait, waitStep, threadStep, INT_Disable, INT_Enable,
      EMU_EnterEM1, hq]

/-- Every step of the wait loop preserves `WakeInv`. -/
theorem wakeInv_step (n : Nat) (a : Option Event) (c c1 : WaitCfg) (h : WakeInv n c)
    (hs : waitStep a c = some c1) : WakeInv n c1 := by
  obtain ⟨pc, isActive, irqOff, s, reads, sleeps⟩ := c
  cases a with
  | none =>
    cases pc <;> simp [waitStep, threadStep, INT_Disable, INT_Enable, EMU_EnterEM1] at hs <;>
      subst hs <;> simp [WakeInv] at h ⊢
    · exact h
    · omega
    · cases isActive <;> simp_all [WakeInv]
    · simp_all
    · exact h
    · cases isActive <;> simp_all [WakeInv]
  | some e =>
    simp only [waitStep] at hs
    cases irqOff with
    | true => simp at hs
    | false =>
      simp at hs
      subst hs
      exact h


/-- C15: no missed wake. In every configuration the wait loop reaches, (a) from
the read of the flags to the re-enabling of interrupts the interrupts are
disabled and no handler can run, the local `isActive` is the current value of
the flags at the sleep decision, and the core is inside EM1 only while the
transfer is still active; (b) as soon as both flags are false, whatever
handlers run in between, the loop returns: alone within `waitRank` (at most 6)
statements, and along every schedule exactly when it has executed that many;
(c) after a wake-up from EM1 the loop returns only after it has read the flags
again. -/
theorem C15_no_missed_wake (s : State) (sched0 : List (Option Event)) (c : WaitCfg)
    (hreach : runWait sched0 (waitEntry s) = some c) :
    ((c.pc = .readFlags ∨ c.pc = .testSleep ∨ c.pc = .enterEM1 ∨ c.pc = .intEnable) →
      c.irqOff = true ∧ ∀ e : Event, waitStep (some e) c = none) ∧
    (c.pc = .testSleep → c.isActive = spiIsActive c.s) ∧
    (c.pc = .enterEM1 → spiIsActive c.s = true) ∧
    (spiIsActive c.s = false →
      waitRank c ≤ 6 ∧
      (∃ c1, runWait (List.replicate (waitRank c) none) c = some c1 ∧ c1.pc = .returned) ∧
      ∀ (sched : List (Option Event)) (c1 : WaitCfg), runWait sched c = some c1 →
        spiIsActive c1.s = false ∧ sched.count none + waitRank c1 = waitRank c ∧
        (c1.pc = .returned ↔ sched.count none = waitRank c)) ∧
    (c.pc = .enterEM1 →
      ∀ (sched : List (Option Event)) (c1 : WaitCfg), runWait sched c = some c1 →
        c1.pc = .returned → c.reads + 1 ≤ c1.reads) := by
  have hinv : WaitInv c :=
    runWait_invariant WaitInv waitInv_step sched0 (waitEntry s) c
      (by simp [WaitInv, waitEntry]) hreach
  refine ⟨?_, ?_, ?_, ?_, ?_⟩
  · intro hpc
    have hoff : c.irqOff = true := by
      obtain ⟨pc, isActive, irqOff, s', reads, sleeps⟩ := c
      rcases hpc with h | h | h | h <;> simp only at h <;> subst h <;>
        simp [WaitInv] at hinv <;> simp [hinv]
    exact ⟨hoff, fun e => by simp [waitStep, hoff]⟩
  · intro hpc
    obtain ⟨pc, isActive, irqOff, s', reads, sleeps⟩ := c
    simp only at hpc
    subst hpc
    simp [WaitInv] at hinv
    exact hinv.2.2
  · intro hpc
    obtain ⟨pc, isActive, irqOff, s', reads, sleeps⟩ := c
    simp only at hpc
    subst hpc
    simp [WaitInv] at hinv
    exact hinv.2.2.2
  · intro hq
    have hle : waitRank c ≤ 6 := by
      obtain ⟨pc, isActive, irqOff, s', reads, sleeps⟩ := c
      simp only at hq
      cases pc <;> simp [WaitInv, hq] at hinv <;> simp [waitRank]
      cases isActive <;> simp
    refine ⟨hle, waitRank_returns c hinv hq, ?_⟩
    intro sched c1 hrun
    have hsum := waitRank_run sched c c1 ⟨hinv, hq⟩ hrun
    have hq1 : WaitInv c1 ∧ spiIsActive c1.s = false :=
      runWait_invariant (fun c => WaitInv c ∧ spiIsActive c.s = false) waitQuiet_step
        sched c c1 ⟨hinv, hq⟩ hrun
    refine ⟨hq1.2, hsum, ?_⟩
    have hzero : c1.pc = .returned ↔ waitRank c1 = 0 := by
      obtain ⟨pc1, isActive1, irqOff1, s1, reads1, sleeps1⟩ := c1
      cases pc1 <;> simp [waitRank]
      cases isActive1 <;> simp
    rw [hzero]
    omega
  · intro hpc sched c1 hrun hret
    have hw0 : WakeInv c.reads c := by
      obtain ⟨pc, isActive, irqOff, s', reads, sleeps⟩ := c
      simp only at hpc
      subst hpc
      simp [WaitInv] at hinv
      simp [WakeInv, hinv]
    have hw1 := runWait_invariant (WakeInv c.reads) (wakeInv_step c.reads) sched c c1 hw0 hrun
    obtain ⟨pc1, isActive1, irqOff1, s1, reads1, sleeps1⟩ := c1
    simp only at hret
    subst hret
    exact hw1.2

/-- C15 (witness): the wait loop entered during the TX-only transfer from the
buffer at address 50 reads the flags, sleeps and is woken; when the TX DMA
completion callback has then run, it returns after exactly 6 more statements. -/
theorem C15_no_missed_wake_witness :
    runWait [none, none, none, none, none, some (Event.dmaDone DMA_CHANNEL_TX)]
        (waitEntry (spiDmaTransfer 50 NULL 10 idleState))
      = some { pc := .testExit, isActive := true, irqOff := false,
               s := transferComplete DMA_CHANNEL_TX (spiDmaTransfer 50 NULL 10 idleState),
               reads := 1, sleeps := 1 } ∧
    ∃ c1, runWait (List.replicate 6 none)
        { pc := .testExit, isActive := true, irqOff := false,
          s := transferComplete DMA_CHANNEL_TX (spiDmaTransfer 50 NULL 10 idleState),
          reads := 1, sleeps := 1 } = some c1 ∧ c1.pc = .returned :=
  ⟨by decide,
   ((C15_no_missed_wake (spiDmaTransfer 50 NULL 10 idleState)
      [none, none, none, none, none, some (Event.dmaDone DMA_CHANNEL_TX)]
      { pc := .testExit, isActive := true, irqOff := false,
        s := transferComplete DMA_CHANNEL_TX (spiDmaTransfer 50 NULL 10 idleState),
        reads := 1, sleeps := 1 } (by decide)).2.2.2.1 (by decide)).2.1⟩


/-! ## Claims C16 and C17: the two USART1 handlers -/

/-- The operator `&` distributes over `|` from the right. -/
theorem mask_and_or (a b c : Nat) : (a ||| b) &&& c = (a &&& c) ||| (b &&& c) := by
  rw [Nat.and_comm, Nat.and_or_distrib_left, Nat.and_comm c a, Nat.and_comm c b]

/-- The TXC bit after `IEN &= USART_IEN_TXC; IEN |= USART_IEN_RXDATAV` is the
TXC bit before. -/
theorem txc_kept (r : Nat) :
    ((r &&& USART_IEN_TXC) ||| USART_IEN_RXDATAV) &&& USART_IEN_TXC = r &&& USART_IEN_TXC := by
  have h : USART_IEN_RXDATAV &&& USART_IEN_TXC = 0 := by decide
  rw [mask_and_or, Nat.and_assoc, Nat.and_self, h, Nat.or_zero]

/-- Setting the TXC bit leaves the RXDATAV bit as it is. -/
theorem rxdatav_kept (r : Nat) :
    (r ||| USART_IEN_TXC) &&& USART_IEN_RXDATAV = r &&& USART_IEN_RXDATAV := by
  have h : USART_IEN_TXC &&& USART_IEN_RXDATAV = 0 := by decide
  rw [mask_and_or, h, Nat.or_zero]

/-- After `IEN &= ~USART_IEN_RXDATAV` the RXDATAV bit is clear. -/
theorem rxdatav_cleared (r : Nat) :
    bitSet (r &&& bnot32 USART_IEN_RXDATAV) USART_IEN_RXDATAV = false := by
  have h : bnot32 USART_IEN_RXDATAV &&& USART_IEN_RXDATAV = 0 := by decide
  simp [bitSet, Nat.and_assoc, h]

/-- After `CTRL &= ~USART_CTRL_AUTOTX` the AUTOTX bit is clear. -/
theorem autotx_cleared (r : Nat) :
    bitSet (r &&& bnot32 USART_CTRL_AUTOTX) USART_CTRL_AUTOTX = false := by
  have h : bnot32 USART_CTRL_AUTOTX &&& USART_CTRL_AUTOTX = 0 := by decide
  simp [bitSet, Nat.and_assoc, h]

/-- C16 (code evaluated): `USART1_TX_IRQHandler` writes TXC to the
interrupt-flag-clear register, but it leaves the TXC interrupt-enable bit as it
was: `USART1->IEN` becomes `(IEN & USART_IEN_TXC) | USART_IEN_RXDATAV`, so with
TXC enabled before, as after the RX completion callback of an auto-transmit
transfer, TXC is still enabled when the handler returns. -/
theorem C16_txc_not_disabled (s : State) :
    (USART1_TX_IRQHandler s).IFC = USART_IFC_TXC :: s.IFC ∧
    (USART1_TX_IRQHandler s).IEN = (s.IEN &&& USART_IEN_TXC) ||| USART_IEN_RXDATAV ∧
    bitSet (USART1_TX_IRQHandler s).IEN USART_IEN_TXC = bitSet s.IEN USART_IEN_TXC ∧
    bitSet (transferComplete DMA_CHANNEL_RX (spiDmaTransfer NULL 100 10 idleState)).IEN
      USART_IEN_TXC = true ∧
    bitSet (USART1_TX_IRQHandler (transferComplete DMA_CHANNEL_RX
      (spiDmaTransfer NULL 100 10 idleState))).IEN USART_IEN_TXC = true := by
  refine ⟨rfl, rfl, ?_, by decide, by decide⟩
  simp only [USART1_TX_IRQHandler, bitSet, txc_kept]

/-- C17: exactly three tail bytes are captured. From any state, after
`USART1_TX_IRQHandler` the counter `bytesLeft` is 3, the RXDATAV interrupt is
enabled and the AUTOTX control bit is clear; each of the first two
`USART1_RX_IRQHandler` invocations stores one byte, decrements the counter and
leaves `txActive`, `rxActive` and `USART1->IEN` unchanged; the third stores one
byte, sets `txActive = rxActive = false`, disables RXDATAV and leaves
`bytesLeft = 0`. -/
theorem C17_three_tail_bytes (s : State) (b0 b1 b2 : Nat) :
    (USART1_TX_IRQHandler s).bytesLeft = 3 ∧
    bitSet (USART1_TX_IRQHandler s).IEN USART_IEN_RXDATAV = true ∧
    bitSet (USART1_TX_IRQHandler s).CTRL USART_CTRL_AUTOTX = false ∧
    (USART1_RX_IRQHandler b0 (USART1_TX_IRQHandler s)).bytesLeft = 2 ∧
    (USART1_RX_IRQHandler b0 (USART1_TX_IRQHandler s)).txActive = s.txActive ∧
    (USART1_RX_IRQHandler b0 (USART1_TX_IRQHandler s)).rxActive = s.rxActive ∧
    (USART1_RX_IRQHandler b0 (USART1_TX_IRQHandler s)).IEN = (USART1_TX_IRQHandler s).IEN ∧
    (USART1_RX_IRQHandler b1 (USART1_RX_IRQHandler b0 (USART1_TX_IRQHandler s))).bytesLeft
      = 1 ∧
    (USART1_RX_IRQHandler b1 (USART1_RX_IRQHandler b0 (USART1_TX_IRQHandler s))).txActive
      = s.txActive ∧
    (USART1_RX_IRQHandler b1 (USART1_RX_IRQHandler b0 (USART1_TX_IRQHandler s))).rxActive
      = s.rxActive ∧
    (USART1_RX_IRQHandler b1 (USART1_RX_IRQHandler b0 (USART1_TX_IRQHandler s))).IEN
      = (USART1_TX_IRQHandler s).IEN ∧
    (USART1_RX_IRQHandler b2 (USART1_RX_IRQHandler b1 (USART1_RX_IRQHandler b0
      (USART1_TX_IRQHandler s)))).bytesLeft = 0 ∧
    (USART1_RX_IRQHandler b2 (USART1_RX_IRQHandler b1 (USART1_RX_IRQHandler b0
      (USART1_TX_IRQHandler s)))).txActive = false ∧
    (USART1_RX_IRQHandler b2 (USART1_RX_IRQHandler b1 (USART1_RX_IRQHandler b0
      (USART1_TX_IRQHandler s)))).rxActive = false ∧
    bitSet (USART1_RX_IRQHandler b2 (USART1_RX_IRQHandler b1 (USART1_RX_IRQHandler b0
      (USART1_TX_IRQHandler s)))).IEN USART_IEN_RXDATAV = false ∧
    (USART1_RX_IRQHandler b2 (USART1_RX_IRQHandler b1 (USART1_RX_IRQHandler b0
      (USART1_TX_IRQHandler s)))).mem.length = s.mem.length + 3 := by
  have h3 : (USART1_TX_IRQHandler s).bytesLeft = 3 := rfl
  have hfin := rxTail_three b0 b1 b2 (USART1_TX_IRQHandler s) h3
  simp only [rxTail, List.foldl] at hfin
  refine ⟨rfl, bitSet_or_mask _ _ (by decide), autotx_cleared _, ?_, ?_, ?_, ?_, ?_, ?_, ?_, ?_,
    by rw [hfin], by rw [hfin], by rw [hfin], ?_, ?_⟩
  · simp [USART1_RX_IRQHandler, USART1_TX_IRQHandler]
  · simp [USART1_RX_IRQHandler, USART1_TX_IRQHandler]
  · simp [USART1_RX_IRQHandler, USART1_TX_IRQHandler]
  · simp [USART1_RX_IRQHandler, USART1_TX_IRQHandler]
  · simp [USART1_RX_IRQHandler, USART1_TX_IRQHandler]
  · simp [USART1_RX_IRQHandler, USART1_TX_IRQHandler]
  · simp [USART1_RX_IRQHandler, USART1_TX_IRQHandler]
  · simp [USART1_RX_IRQHandler, USART1_TX_IRQHandler]
  · rw [hfin]
    exact rxdatav_cleared _
  · rw [hfin]
    simp [storeByte, USART1_TX_IRQHandler]


/-! ## Claims C18 and C19: reachable states -/

/-- Induction along a sequence of enabled steps. -/
theorem runActions_invariant (P : State → Prop)
    (hstep : ∀ (a : Action) (s : State), P s → a.enabled s = true → P (a.apply s)) :
    ∀ (as : List Action) (s0 s1 : State), P s0 → runActions as s0 = some s1 → P s1 := by
  intro as
  induction as with
  | nil =>
    intro s0 s1 h0 hrun
    simp [runActions] at hrun
    exact hrun ▸ h0
  | cons a as ih =>
    intro s0 s1 h0 hrun
    simp only [runActions] at hrun
    split_ifs at hrun with he
    exact ih _ _ (hstep a s0 h0 he) hrun

/-- The launcher changes neither `USART1->IEN` nor `bytesLeft`. -/
theorem spiDmaTransfer_tail (tx rx : Nat) (bytes : Int) (s : State) :
    (spiDmaTransfer tx rx bytes s).IEN = s.IEN ∧
    (spiDmaTransfer tx rx bytes s).bytesLeft = s.bytesLeft := by
  simp only [spiDmaTransfer, DMA_ActivateBasic]
  split_ifs <;> simp

/-- Every enabled step preserves `TailInv`. -/
theorem tailInv_step (a : Action) (s : State) (h : TailInv s) (he : a.enabled s = true) :
    TailInv (a.apply s) := by
  obtain ⟨h0, h3, hen⟩ := h
  cases a with
  | launch tx rx bytes =>
    obtain ⟨hi, hb⟩ := spiDmaTransfer_tail tx rx bytes s
    simp only [TailInv, Action.apply, hi, hb]
    exact ⟨h0, h3, hen⟩
  | event e =>
    cases e with
    | dmaDone ch =>
      simp only [Action.apply, Event.apply, transferComplete]
      split_ifs
      · exact ⟨h0, h3, hen⟩
      · refine ⟨h0, h3, ?_⟩
        simp only [bitSet, rxdatav_kept]
        exact hen
      · exact ⟨h0, h3, hen⟩
      · exact ⟨h0, h3, hen⟩
    | txIrq =>
      refine ⟨?_, ?_, ?_⟩ <;> simp [Action.apply, Event.apply, USART1_TX_IRQHandler]
    | rxIrq b =>
      have h1 : 1 ≤ s.bytesLeft := hen he
      simp only [Action.apply, Event.apply, USART1_RX_IRQHandler]
      split_ifs with hz
      · refine ⟨?_, ?_, ?_⟩
        · simp only; omega
        · simp only; omega
        · simp only [rxdatav_cleared]
          intro hf
          simp at hf
      · refine ⟨?_, ?_, ?_⟩
        · simp only; omega
        · simp only; omega
        · intro _
          simp only at hz ⊢
          omega

/-- C18: in every state reachable from an idle state (both flags false,
`USART1->IEN = 0`, `bytesLeft = 0`) by `spiDmaTransfer` calls, DMA completion
callbacks and USART1 handlers fired only when their interrupt-enable bit is
set, `bytesLeft` is never negative, and whenever RXDATAV is enabled
`1 <= bytesLeft <= 3`; hence on every entry to `USART1_RX_IRQHandler` the store
index `SPI_TRANSFER_SIZE - bytesLeft` lies in 7..9 and the counter stays
non-negative after its decrement. -/
theorem C18_tail_counter_range (s0 : State) (as : List Action) (s : State)
    (hidle : s0.txActive = false ∧ s0.rxActive = false ∧ s0.IEN = 0 ∧ s0.bytesLeft = 0)
    (hrun : runActions as s0 = some s) :
    0 ≤ s.bytesLeft ∧
    (bitSet s.IEN USART_IEN_RXDATAV = true → 1 ≤ s.bytesLeft ∧ s.bytesLeft ≤ 3) ∧
    (∀ b, Event.enabled (Event.rxIrq b) s = true →
      7 ≤ SPI_TRANSFER_SIZE - s.bytesLeft ∧ SPI_TRANSFER_SIZE - s.bytesLeft ≤ 9 ∧
      (USART1_RX_IRQHandler b s).mem =
        storeByte s.mem ((s.rxBufferG : Int) + (SPI_TRANSFER_SIZE - s.bytesLeft)) b ∧
      0 ≤ (USART1_RX_IRQHandler b s).bytesLeft) := by
  obtain ⟨_, _, hien, hbl⟩ := hidle
  have hinit : TailInv s0 := by
    refine ⟨by omega, by omega, ?_⟩
    simp [bitSet, hien]
  obtain ⟨h0, h3, hen⟩ := runActions_invariant TailInv tailInv_step as s0 s hinit hrun
  refine ⟨h0, fun h => ⟨hen h, h3⟩, ?_⟩
  intro b hb
  have h1 : 1 ≤ s.bytesLeft := hen hb
  refine ⟨by simp only [SPI_TRANSFER_SIZE]; omega, by simp only [SPI_TRANSFER_SIZE]; omega,
    ?_, ?_⟩
  · simp only [USART1_RX_IRQHandler]
    split_ifs <;> rfl
  · simp only [USART1_RX_IRQHandler]
    split_ifs <;> simp only <;> omega

/-- C18 (witness): from the initial idle state, the launch of the 10 byte
auto-transmit transfer into the buffer at address 100, the RX completion
callback, `USART1_TX_IRQHandler` and one `USART1_RX_IRQHandler`: RXDATAV is
enabled and the counter is 2. -/
theorem C18_tail_counter_range_witness :
    runActions [Action.launch NULL 100 10, Action.event (Event.dmaDone DMA_CHANNEL_RX),
        Action.event Event.txIrq, Action.event (Event.rxIrq 8)] idleState
      = some (USART1_RX_IRQHandler 8 (USART1_TX_IRQHandler (transferComplete DMA_CHANNEL_RX
          (spiDmaTransfer NULL 100 10 idleState)))) ∧
    bitSet (USART1_RX_IRQHandler 8 (USART1_TX_IRQHandler (transferComplete DMA_CHANNEL_RX
      (spiDmaTransfer NULL 100 10 idleState)))).IEN USART_IEN_RXDATAV = true ∧
    1 ≤ (USART1_RX_IRQHandler 8 (USART1_TX_IRQHandler (transferComplete DMA_CHANNEL_RX
      (spiDmaTransfer NULL 100 10 idleState)))).bytesLeft ∧
    (USART1_RX_IRQHandler 8 (USART1_TX_IRQHandler (transferComplete DMA_CHANNEL_RX
      (spiDmaTransfer NULL 100 10 idleState)))).bytesLeft ≤ 3 :=
  ⟨by decide, by decide,
   (C18_tail_counter_range idleState
      [Action.launch NULL 100 10, Action.event (Event.dmaDone DMA_CHANNEL_RX),
        Action.event Event.txIrq, Action.event (Event.rxIrq 8)]
      (USART1_RX_IRQHandler 8 (USART1_TX_IRQHandler (transferComplete DMA_CHANNEL_RX
        (spiDmaTransfer NULL 100 10 idleState))))
      (by decide) (by decide)).2.1 (by decide)⟩

/-- C19: the stuck state. For `spiDmaTransfer(NULL, NULL, bytes)` from an idle
state, `txActive` becomes true while neither DMA channel is activated and no
USART1 interrupt-enable bit is set, so no completion callback and no handler
can be raised in the resulting state: without a further `spiDmaTransfer` call
the only state reachable from it is that state itself and `spiIsActive()` is
true there. -/
theorem C19_stuck_state (bytes : Int) (s : State) (es : List Event) (s1 : State)
    (hs : Idle s) :
    (spiDmaTransfer NULL NULL bytes s).txActive = true ∧
    (spiDmaTransfer NULL NULL bytes s).dmaRx = none ∧
    (spiDmaTransfer NULL NULL bytes s).dmaTx = none ∧
    (spiDmaTransfer NULL NULL bytes s).IEN = 0 ∧
    spiIsActive (spiDmaTransfer NULL NULL bytes s) = true ∧
    (∀ e : Event, e.armed (spiDmaTransfer NULL NULL bytes s) = false) ∧
    (runArmed es (spiDmaTransfer NULL NULL bytes s) = some s1 →
      es = [] ∧ s1 = spiDmaTransfer NULL NULL bytes s ∧ spiIsActive s1 = true) := by
  obtain ⟨_, _, hien, hdrx, hdtx⟩ := hs
  have hst : spiDmaTransfer NULL NULL bytes s =
      { s with autoTx := true, txActive := true, rxBufferG := NULL,
               CMD := USART_CMD_CLEARTX :: s.CMD,
               CTRL := s.CTRL ||| USART_CTRL_AUTOTX } := by
    simp [spiDmaTransfer]
  have harm : ∀ e : Event, e.armed (spiDmaTransfer NULL NULL bytes s) = false := by
    intro e
    rw [hst]
    cases e with
    | dmaDone ch =>
      simp only [Event.armed, hdrx, hdtx]
      split_ifs <;> rfl
    | txIrq => simp [Event.armed, bitSet, hien]
    | rxIrq b => simp [Event.armed, bitSet, hien]
  have hact : spiIsActive (spiDmaTransfer NULL NULL bytes s) = true := by
    rw [hst]
    simp [spiIsActive]
  refine ⟨by rw [hst], by rw [hst]; exact hdrx, by rw [hst]; exact hdtx,
    by rw [hst]; exact hien, hact, harm, ?_⟩
  intro hrun
  cases es with
  | nil =>
    simp [runArmed] at hrun
    exact ⟨rfl, hrun.symm, hrun ▸ hact⟩
  | cons e es =>
    simp [runArmed, harm e] at hrun

/-- C19 (witness): the launch without any buffer from the initial idle state. -/
theorem C19_stuck_state_witness :
    Idle idleState ∧
    runArmed [] (spiDmaTransfer NULL NULL 10 idleState)
      = some (spiDmaTransfer NULL NULL 10 idleState) ∧
    spiIsActive (spiDmaTransfer NULL NULL 10 idleState) = true ∧
    Event.armed (Event.dmaDone DMA_CHANNEL_RX) (spiDmaTransfer NULL NULL 10 idleState)
      = false :=
  ⟨by decide, rfl,
   (C19_stuck_state 10 idleState [] (spiDmaTransfer NULL NULL 10 idleState) (by decide)).2.2.2.2.1,
   (C19_stuck_state 10 idleState [] (spiDmaTransfer NULL NULL 10 idleState)
      (by decide)).2.2.2.2.2.1 (Event.dmaDone DMA_CHANNEL_RX)⟩

end SpiAutoTx
